import Mathlib

/-!
# Lunar lander state machine

A shallow embedding of `StateMachine.cpp`: the four concrete `State` classes, the
`StateFactory`, the `LunarLanderContext` (current state plus attached observers) and the
exception flow of the `try`/`catch` blocks, followed by theorems about the phase chain,
the notification fan-out and the notify-then-transition ordering.

Every member function of the context is a computation `M α`: it receives the context
object, and returns the context it leaves behind, the events it emitted (each stamped
with the state that was current when it was emitted) and either a value or a fault.

The member functions are embedded twice: once for observers whose `update` returns or
throws and leaves the context alone, and once, under `Reentrant`, for observers whose
`update` may also call `setState` on the context. The second embedding agrees with the
first when no attached observer calls back (`reentrant_request_eq` and its neighbours).
-/

namespace LunarLander

/-! ## Data model -/

/-- The dynamic type of a `State` object: one of the four concrete subclasses. -/
inductive State where
  | DeployedInOrbit
  | Descending
  | EngineCutOff
  | Landed
  deriving DecidableEq, Repr

/-- What a C++ `throw` carries, as far as the two `catch` clauses of `main` tell apart:
an object derived from `std::exception` (with its `what()` text), or anything else. -/
inductive Exn where
  | stdException (what : String)
  | other
  deriving DecidableEq, Repr

/-- An `Observer*` held by the context. `id` stands for the pointer value (two entries of
the vector are the same listener iff their `id`s agree); `throwsOn message` is the
behaviour of the virtual `update(message)`: `none` when it returns, `some e` when it
throws `e`. What an `update` does to the context on top of that is given apart, by
`Callbacks`; `Observer.update` is the call of an override that does nothing to it. -/
structure Observer where
  id : Nat
  throwsOn : String → Option Exn

/-- The concrete observer `DiagnosticTool`: `update` prints and returns, it never throws. -/
def DiagnosticTool (id : Nat) : Observer := ⟨id, fun _ => none⟩

/-- The data members of `LunarLanderContext`: `currentState` is a `unique_ptr<State>`
(`none` is the null pointer) and `observers` the vector of attached observers. -/
structure LunarLanderContext where
  currentState : Option State
  observers : List Observer

/-- Observable events of an execution. -/
inductive Event where
  /-- A write of `text` to `std::cout` by the context or by a state. -/
  | cout (text : String)
  /-- A call `notifyObservers(message)` was entered. -/
  | notify (message : String)
  /-- The call `observer->update(message)` of an `update` that returns; what the observer
  itself does with the message (a `DiagnosticTool` prints it) is part of this event. -/
  | update (observer : Nat) (message : String)
  /-- The call `observer->update(message)` of an `update` that throws. -/
  | updateThrew (observer : Nat) (message : String)
  deriving DecidableEq, Repr

/-- A trace entry: an event together with the `currentState` of the context at the moment
the event happened. -/
structure Entry where
  event : Event
  phase : Option State
  deriving DecidableEq, Repr

/-- Abnormal termination of a computation: a C++ exception in flight, or the dereference
of a null `currentState` (undefined behaviour in C++, which no `catch` intercepts). -/
inductive Fault where
  | thrown (e : Exn)
  | nullDeref
  deriving DecidableEq, Repr

/-- The result of running a computation on a context. -/
structure Res (α : Type) where
  ctx : LunarLanderContext
  trace : List Entry
  value : Except Fault α

/-- Computations on the context object. -/
def M (α : Type) : Type := LunarLanderContext → Res α

/-- A computation that returns `a` and does nothing else. -/
def M.pure {α : Type} (a : α) : M α := fun ctx => ⟨ctx, [], Except.ok a⟩

/-- Sequencing of statements: when the first one faults, the rest is skipped. -/
def M.bind {α β : Type} (m : M α) (f : α → M β) : M β := fun ctx =>
  let r1 := m ctx
  match r1.value with
  | Except.ok a =>
    let r2 := f a r1.ctx
    ⟨r2.ctx, r1.trace ++ r2.trace, r2.value⟩
  | Except.error e => ⟨r1.ctx, r1.trace, Except.error e⟩

instance : Monad M where
  pure := M.pure
  bind := M.bind

/-- The block `try { body } catch (...) { handler }`: any C++ exception thrown by `body`
runs `handler` on the context `body` left behind. -/
def tryCatchAll (body handler : M Unit) : M Unit := fun ctx =>
  let r1 := body ctx
  match r1.value with
  | Except.error (Fault.thrown _) =>
    let r2 := handler r1.ctx
    ⟨r2.ctx, r1.trace ++ r2.trace, r2.value⟩
  | _ => r1

/-- Emit one event, stamped with the state that is current now. -/
def emit (e : Event) : M Unit := fun ctx => ⟨ctx, [⟨e, ctx.currentState⟩], Except.ok ()⟩

/-- The statement `std::cout << text`. -/
def cout (text : String) : M Unit := emit (Event.cout text)

/-! ## The program -/

/-- `StateFactory::createState`: a new state object of the named class, or `nullptr`. -/
def StateFactory.createState (type : String) : Option State :=
  if type = "DeployedInOrbit" then some State.DeployedInOrbit
  else if type = "Descending" then some State.Descending
  else if type = "EngineCutOff" then some State.EngineCutOff
  else if type = "Landed" then some State.Landed
  else none

/-- The expression statement `StateFactory::createState(type);` inside a computation: the
static function is evaluated and its result handed to the caller. It is given no context
object, so it can neither read nor write one. -/
def StateFactory.callCreateState (type : String) : M (Option State) :=
  pure (StateFactory.createState type)

/-- The constructor `LunarLanderContext::LunarLanderContext`: the current state comes from
the factory, the observer vector starts empty. -/
def LunarLanderContext.new : LunarLanderContext :=
  ⟨StateFactory.createState "DeployedInOrbit", []⟩

/-- `LunarLanderContext::getInstance` on the static member `instance` (`none` is
`nullptr`): returns the instance and the new value of the static member. -/
def LunarLanderContext.getInstance (inst : Option LunarLanderContext) :
    LunarLanderContext × Option LunarLanderContext :=
  match inst with
  | none => (LunarLanderContext.new, some LunarLanderContext.new)
  | some c => (c, some c)

/-- `LunarLanderContext::setState`: `currentState.reset(state)` and then the transition
marker on `std::cout`. -/
def LunarLanderContext.setState (state : Option State) : M Unit := do
  (fun ctx => ⟨⟨state, ctx.observers⟩, [], Except.ok ()⟩ : M Unit)
  cout "State transitioned.\n"

/-- The call `observer->update(message)`. -/
def Observer.update (o : Observer) (message : String) : M Unit := fun ctx =>
  match o.throwsOn message with
  | none => ⟨ctx, [⟨Event.update o.id message, ctx.currentState⟩], Except.ok ()⟩
  | some e =>
    ⟨ctx, [⟨Event.updateThrew o.id message, ctx.currentState⟩], Except.error (Fault.thrown e)⟩

/-- The loop `for (auto observer : observers) observer->update(message);`. -/
def updateEach (message : String) : List Observer → M Unit
  | [] => pure ()
  | o :: rest => do
    o.update message
    updateEach message rest

/-- `LunarLanderContext::notifyObservers`. -/
def LunarLanderContext.notifyObservers (message : String) : M Unit := do
  emit (Event.notify message)
  (fun ctx => updateEach message ctx.observers ctx : M Unit)

/-- `LunarLanderContext::attachObserver`: `observers.push_back(observer)`. -/
def LunarLanderContext.attachObserver (observer : Observer) : M Unit := fun ctx =>
  ⟨⟨ctx.currentState, ctx.observers ++ [observer]⟩, [], Except.ok ()⟩

/-- `DeployedInOrbit::handle`. -/
def DeployedInOrbit.handle : M Unit :=
  tryCatchAll
    (do
      cout "Lunar Lander is deployed in orbit. Preparing for descent.\n"
      LunarLanderContext.notifyObservers "Deployed in Orbit: Preparing for descent"
      LunarLanderContext.setState (StateFactory.createState "Descending"))
    (LunarLanderContext.notifyObservers "Error while deploying in orbit.")

/-- `Descending::handle`. -/
def Descending.handle : M Unit :=
  tryCatchAll
    (do
      cout "Lunar Lander is descending. Engines are operational.\n"
      LunarLanderContext.notifyObservers "Descending: Engines are operational"
      LunarLanderContext.setState (StateFactory.createState "EngineCutOff"))
    (LunarLanderContext.notifyObservers "Error during descent.")

/-- `EngineCutOff::handle`. -/
def EngineCutOff.handle : M Unit :=
  tryCatchAll
    (do
      cout "Engines cut off at 30 meters above the surface. Final descent phase.\n"
      LunarLanderContext.notifyObservers "Engine Cut Off: At 30 meters"
      LunarLanderContext.setState (StateFactory.createState "Landed"))
    (LunarLanderContext.notifyObservers "Error during engine cut-off.")

/-- `Landed::handle`. -/
def Landed.handle : M Unit :=
  tryCatchAll
    (do
      cout "Lunar Lander has landed on the surface. Mission successful.\n"
      LunarLanderContext.notifyObservers "Landed: Mission successful")
    (LunarLanderContext.notifyObservers "Error during landing phase.")

/-- The virtual call `state->handle(context)`: dispatch on the dynamic type. -/
def State.handle : State → M Unit
  | State.DeployedInOrbit => DeployedInOrbit.handle
  | State.Descending => Descending.handle
  | State.EngineCutOff => EngineCutOff.handle
  | State.Landed => Landed.handle

/-- `LunarLanderContext::request`: `currentState->handle(*this)`. -/
def LunarLanderContext.request : M Unit := fun ctx =>
  match ctx.currentState with
  | none => ⟨ctx, [], Except.error Fault.nullDeref⟩
  | some s => s.handle ctx

/-- One call of the public interface made by the owning process. -/
inductive Call where
  | request
  | notifyObservers (message : String)
  | attachObserver (observer : Observer)

/-- The member function a call stands for. -/
def Call.run : Call → M Unit
  | Call.request => LunarLanderContext.request
  | Call.notifyObservers message => LunarLanderContext.notifyObservers message
  | Call.attachObserver observer => LunarLanderContext.attachObserver observer

/-- A sequence of calls, one statement after the other. -/
def runCalls : List Call → M Unit
  | [] => pure ()
  | c :: rest => do
    c.run
    runCalls rest

/-- The message of an event, when the event is an `update` call on `observer` that
returned. -/
def Event.receivedBy (observer : Nat) : Event → Option String
  | Event.update o message => if o = observer then some message else none
  | _ => none

/-- The message of an event, when the event is a call of `notifyObservers`. -/
def Event.firedMessage : Event → Option String
  | Event.notify message => some message
  | _ => none

/-- The observer and message of an event, when the event is an `update` call that
returned. -/
def Event.delivery : Event → Option (Nat × String)
  | Event.update o message => some (o, message)
  | _ => none

/-- The text of an event, when the event is a write to `std::cout`. -/
def Event.text : Event → Option String
  | Event.cout text => some text
  | _ => none

/-- The messages `observer` received, in order: one per `update` call that returned. -/
def logOf (observer : Nat) (trace : List Entry) : List String :=
  trace.filterMap fun e => e.event.receivedBy observer

/-- The messages fired, in order: one per call of `notifyObservers`. -/
def fired (trace : List Entry) : List String :=
  trace.filterMap fun e => e.event.firedMessage

/-- The deliveries, in order: the observer and message of each `update` call that
returned. -/
def deliveries (trace : List Entry) : List (Nat × String) :=
  trace.filterMap fun e => e.event.delivery

/-- The texts the context and the states wrote to `std::cout`, in order. -/
def console (trace : List Entry) : List String :=
  trace.filterMap fun e => e.event.text

/-- An observer whose `update` throws on every message. -/
def ThrowingObserver (id : Nat) : Observer := ⟨id, fun _ => some Exn.other⟩

/-- No observer of the list throws, whatever the message. -/
def NonFailing (observers : List Observer) : Prop :=
  ∀ o ∈ observers, ∀ message : String, o.throwsOn message = none

/-- The notification text a state passes to `notifyObservers` in its `try` block. -/
def State.message : State → String
  | State.DeployedInOrbit => "Deployed in Orbit: Preparing for descent"
  | State.Descending => "Descending: Engines are operational"
  | State.EngineCutOff => "Engine Cut Off: At 30 meters"
  | State.Landed => "Landed: Mission successful"

/-- The text a state passes to `notifyObservers` in its `catch (...)` block. -/
def State.errorText : State → String
  | State.DeployedInOrbit => "Error while deploying in orbit."
  | State.Descending => "Error during descent."
  | State.EngineCutOff => "Error during engine cut-off."
  | State.Landed => "Error during landing phase."

/-- The text a state writes to `std::cout` at the start of its `try` block. -/
def State.banner : State → String
  | State.DeployedInOrbit => "Lunar Lander is deployed in orbit. Preparing for descent.\n"
  | State.Descending => "Lunar Lander is descending. Engines are operational.\n"
  | State.EngineCutOff =>
    "Engines cut off at 30 meters above the surface. Final descent phase.\n"
  | State.Landed => "Lunar Lander has landed on the surface. Mission successful.\n"

/-- The trace of a fan-out in which every `update` returns: one delivery of `message` per
entry of `observers`, in order, all under the current state `phase`. -/
def fanOut (message : String) (phase : Option State) (observers : List Observer) :
    List Entry :=
  observers.map fun o => ⟨Event.update o.id message, phase⟩

/-- The transition marker `setState` writes. -/
def marker : Event := Event.cout "State transitioned.\n"

/-- The successor of a state in the chain; `Landed` is its own successor. -/
def State.next : State → State
  | State.DeployedInOrbit => State.Descending
  | State.Descending => State.EngineCutOff
  | State.EngineCutOff => State.Landed
  | State.Landed => State.Landed

/-- The trace `setState` contributes to a request served by state `s` when nothing throws:
the marker, stamped with the new state, unless `s` is `Landed`. -/
def transitionTrace (s : State) : List Entry :=
  if s = State.Landed then [] else [⟨marker, some s.next⟩]

/-- The whole trace of a request served by state `s` when no observer throws. -/
def requestTrace (s : State) (observers : List Observer) : List Entry :=
  ⟨Event.cout s.banner, some s⟩ :: ⟨Event.notify s.message, some s⟩
    :: (fanOut s.message (some s) observers ++ transitionTrace s)

/-- The chain of the specification: orbit, descending, engine-cutoff, landed. -/
def specChain : List State :=
  [State.DeployedInOrbit, State.Descending, State.EngineCutOff, State.Landed]

/-- An observer whose `update` throws on `message` and returns on every other message. -/
def FailsOn (id : Nat) (message : String) : Observer :=
  ⟨id, fun m => if m = message then some Exn.other else none⟩

/-- What the loop over `observers` throws for `message`: the exception of the first
observer whose `update` throws, `none` when every `update` returns. -/
def firstThrow (message : String) : List Observer → Option Exn
  | [] => none
  | o :: rest =>
    match o.throwsOn message with
    | none => firstThrow message rest
    | some e => some e

/-- The context after the calls `cs`, made one after the other by a caller that goes on
to the next call whether or not the previous one threw. -/
def contextAfter (cs : List Call) (ctx : LunarLanderContext) : LunarLanderContext :=
  cs.foldl (fun c call => (call.run c).ctx) ctx

/-- The statement `LunarLanderContext::getInstance()->m(...)`: the member function runs on
the object the accessor returns, and afterwards the static member points to that object
as the function left it. -/
def callOnInstance {α : Type} (m : M α) (inst : Option LunarLanderContext) :
    Res α × Option LunarLanderContext :=
  (m (LunarLanderContext.getInstance inst).1,
    some (m (LunarLanderContext.getInstance inst).1).ctx)

/-- The static member after the calls `cs`, each made through the accessor. -/
def instanceAfter (cs : List Call) (inst : Option LunarLanderContext) :
    Option LunarLanderContext :=
  cs.foldl (fun i call => (callOnInstance call.run i).2) inst

/-- How a loop over observers ends: normally when nothing was thrown, else with the
exception in flight. -/
def throwResult : Option Exn → Except Fault Unit
  | none => Except.ok ()
  | some e => Except.error (Fault.thrown e)

/-! ## Observers that call back into the context

The definitions above embed `update` overrides that return or throw and do nothing to the
context, such as `DiagnosticTool`. An override is arbitrary code, and the context is
reachable from it through the public accessor. The definitions of this section embed the
same member functions for observers whose `update` also calls `setState` on the context
while it handles a message. -/

/-- A call that an `update` override makes on the context while it handles a message:
`LunarLanderContext::getInstance()->setState(state)`. Calls of `request`,
`notifyObservers` or `attachObserver` from inside an `update` are not embedded; the
theorems about observers that may call back assume of them that they make no call at
all. -/
inductive Reentry where
  | setState (state : Option State)
  deriving DecidableEq, Repr

/-- What the `update` overrides do to the context: `calls id message` lists, in order, the
calls the observer at address `id` makes while it handles `message`, before it returns or
throws as its `throwsOn` says. -/
def Callbacks : Type := Nat → String → List Reentry

/-- No observer of the list calls back into the context, whatever the message. -/
def NoCallbacks (calls : Callbacks) (observers : List Observer) : Prop :=
  ∀ o ∈ observers, ∀ message : String, calls o.id message = []

/-- The statement `throw e`. -/
def throwExn (e : Exn) : M Unit := fun ctx => ⟨ctx, [], Except.error (Fault.thrown e)⟩

/-- One call made from inside an `update`. -/
def Reentry.run : Reentry → M Unit
  | Reentry.setState state => LunarLanderContext.setState state

/-- The calls made from inside an `update`, one after the other. -/
def Reentrant.runAll : List Reentry → M Unit
  | [] => pure ()
  | r :: rest => do
    r.run
    Reentrant.runAll rest

/-- The call `observer->update(message)` of an observer that may call back: the delivery
is recorded under the state current at the call, then the override makes its calls on the
context, then it returns or throws. -/
def Reentrant.update (calls : Callbacks) (o : Observer) (message : String) : M Unit := do
  emit (match o.throwsOn message with
    | none => Event.update o.id message
    | some _ => Event.updateThrew o.id message)
  Reentrant.runAll (calls o.id message)
  match o.throwsOn message with
    | none => pure ()
    | some e => throwExn e

/-- The loop `for (auto observer : observers) observer->update(message);`. -/
def Reentrant.updateEach (calls : Callbacks) (message : String) : List Observer → M Unit
  | [] => pure ()
  | o :: rest => do
    Reentrant.update calls o message
    Reentrant.updateEach calls message rest

/-- `LunarLanderContext::notifyObservers` with observers that may call back. -/
def Reentrant.notifyObservers (calls : Callbacks) (message : String) : M Unit := do
  emit (Event.notify message)
  (fun ctx => Reentrant.updateEach calls message ctx.observers ctx : M Unit)

/-- `DeployedInOrbit::handle` with observers that may call back. -/
def Reentrant.DeployedInOrbit.handle (calls : Callbacks) : M Unit :=
  tryCatchAll
    (do
      cout "Lunar Lander is deployed in orbit. Preparing for descent.\n"
      Reentrant.notifyObservers calls "Deployed in Orbit: Preparing for descent"
      LunarLanderContext.setState (StateFactory.createState "Descending"))
    (Reentrant.notifyObservers calls "Error while deploying in orbit.")

/-- `Descending::handle` with observers that may call back. -/
def Reentrant.Descending.handle (calls : Callbacks) : M Unit :=
  tryCatchAll
    (do
      cout "Lunar Lander is descending. Engines are operational.\n"
      Reentrant.notifyObservers calls "Descending: Engines are operational"
      LunarLanderContext.setState (StateFactory.createState "EngineCutOff"))
    (Reentrant.notifyObservers calls "Error during descent.")

/-- `EngineCutOff::handle` with observers that may call back. -/
def Reentrant.EngineCutOff.handle (calls : Callbacks) : M Unit :=
  tryCatchAll
    (do
      cout "Engines cut off at 30 meters above the surface. Final descent phase.\n"
      Reentrant.notifyObservers calls "Engine Cut Off: At 30 meters"
      LunarLanderContext.setState (StateFactory.createState "Landed"))
    (Reentrant.notifyObservers calls "Error during engine cut-off.")

/-- `Landed::handle` with observers that may call back. -/
def Reentrant.Landed.handle (calls : Callbacks) : M Unit :=
  tryCatchAll
    (do
      cout "Lunar Lander has landed on the surface. Mission successful.\n"
      Reentrant.notifyObservers calls "Landed: Mission successful")
    (Reentrant.notifyObservers calls "Error during landing phase.")

/-- The virtual call `state->handle(context)` with observers that may call back. The
object is chosen when the call is made; a `setState` from inside an `update` replaces
`currentState` but the `handle` that is running goes on to its own `setState`. -/
def Reentrant.handle (calls : Callbacks) : State → M Unit
  | State.DeployedInOrbit => Reentrant.DeployedInOrbit.handle calls
  | State.Descending => Reentrant.Descending.handle calls
  | State.EngineCutOff => Reentrant.EngineCutOff.handle calls
  | State.Landed => Reentrant.Landed.handle calls

/-- `LunarLanderContext::request` with observers that may call back. -/
def Reentrant.request (calls : Callbacks) : M Unit := fun ctx =>
  match ctx.currentState with
  | none => ⟨ctx, [], Except.error Fault.nullDeref⟩
  | some s => Reentrant.handle calls s ctx

/-- The member function a call stands for, with observers that may call back. -/
def Reentrant.run (calls : Callbacks) : Call → M Unit
  | Call.request => Reentrant.request calls
  | Call.notifyObservers message => Reentrant.notifyObservers calls message
  | Call.attachObserver observer => LunarLanderContext.attachObserver observer

/-- A sequence of calls, one statement after the other, with observers that may call
back. -/
def Reentrant.runCalls (calls : Callbacks) : List Call → M Unit
  | [] => pure ()
  | c :: rest => do
    Reentrant.run calls c
    Reentrant.runCalls calls rest

/-- The context after the calls `cs`, made one after the other by a caller that goes on
whether or not the previous call threw, with observers that may call back. -/
def Reentrant.contextAfter (calls : Callbacks) (cs : List Call)
    (ctx : LunarLanderContext) : LunarLanderContext :=
  cs.foldl (fun c call => (Reentrant.run calls call c).ctx) ctx

/-- The observer a call attaches, if it is `attachObserver`. -/
def Call.attached : Call → List Observer
  | Call.attachObserver observer => [observer]
  | _ => []

/-- The observers a sequence of calls attaches. -/
def attachedBy (cs : List Call) : List Observer := cs.flatMap Call.attached

/-- An observer whose `update` returns on every message; what it does to the context
before it returns is given by the callbacks. -/
def Returning (id : Nat) : Observer := ⟨id, fun _ => none⟩

/-- The callbacks of a world in which only the observer at address `target` calls back:
on every message it calls `setState(state)` once. -/
def onlyCallback (target : Nat) (state : Option State) : Callbacks :=
  fun id _ => if id = target then [Reentry.setState state] else []

/-! ## Basic lemmas -/

theorem bind_run {α β : Type} (m : M α) (f : α → M β) (ctx : LunarLanderContext) :
    (m >>= f) ctx = M.bind m f ctx := rfl

theorem pure_run {α : Type} (a : α) (ctx : LunarLanderContext) :
    (pure a : M α) ctx = ⟨ctx, [], Except.ok a⟩ := rfl

theorem updateEach_nonFailing (message : String) (observers : List Observer)
    (h : NonFailing observers) (ctx : LunarLanderContext) :
    updateEach message observers ctx
      = ⟨ctx, fanOut message ctx.currentState observers, Except.ok ()⟩ := by
  induction observers with
  | nil => rfl
  | cons o rest ih =>
    have ho : o.throwsOn message = none := h o (List.mem_cons_self _ _) message
    have hrest : NonFailing rest := fun x hx => h x (List.mem_cons_of_mem _ hx)
    simp [updateEach, bind_run, M.bind, Observer.update, ho, ih hrest, fanOut]

theorem notifyObservers_nonFailing (message : String) (ctx : LunarLanderContext)
    (h : NonFailing ctx.observers) :
    LunarLanderContext.notifyObservers message ctx
      = ⟨ctx, ⟨Event.notify message, ctx.currentState⟩
          :: fanOut message ctx.currentState ctx.observers, Except.ok ()⟩ := by
  simp [LunarLanderContext.notifyObservers, bind_run, M.bind, emit,
    updateEach_nonFailing message ctx.observers h]

theorem request_nonFailing (s : State) (observers : List Observer)
    (h : NonFailing observers) :
    LunarLanderContext.request ⟨some s, observers⟩
      = ⟨⟨some s.next, observers⟩, requestTrace s observers, Except.ok ()⟩ := by
  have hn := fun message =>
    notifyObservers_nonFailing message ⟨some s, observers⟩ h
  cases s <;>
    simp [LunarLanderContext.request, State.handle, DeployedInOrbit.handle,
      Descending.handle, EngineCutOff.handle, Landed.handle, tryCatchAll, bind_run, M.bind,
      cout, emit, hn, LunarLanderContext.setState, StateFactory.createState, requestTrace,
      transitionTrace, State.next, State.banner, State.message, marker]

theorem diagnosticTool_nonFailing (ids : List Nat) :
    NonFailing (ids.map DiagnosticTool) := by
  intro o ho message
  obtain ⟨i, _, rfl⟩ := List.mem_map.mp ho
  rfl

/-! ## Projections of traces -/

theorem logOf_append (i : Nat) (t1 t2 : List Entry) :
    logOf i (t1 ++ t2) = logOf i t1 ++ logOf i t2 := by
  simp [logOf, List.filterMap_append]

theorem fired_append (t1 t2 : List Entry) : fired (t1 ++ t2) = fired t1 ++ fired t2 := by
  simp [fired, List.filterMap_append]

theorem deliveries_append (t1 t2 : List Entry) :
    deliveries (t1 ++ t2) = deliveries t1 ++ deliveries t2 := by
  simp [deliveries, List.filterMap_append]

theorem console_append (t1 t2 : List Entry) :
    console (t1 ++ t2) = console t1 ++ console t2 := by
  simp [console, List.filterMap_append]

theorem fanOut_cons (message : String) (phase : Option State) (o : Observer)
    (rest : List Observer) :
    fanOut message phase (o :: rest)
      = [⟨Event.update o.id message, phase⟩] ++ fanOut message phase rest := rfl

theorem logOf_fanOut (i : Nat) (message : String) (phase : Option State)
    (observers : List Observer) :
    logOf i (fanOut message phase observers)
      = List.replicate ((observers.map Observer.id).count i) message := by
  induction observers with
  | nil => rfl
  | cons o rest ih =>
    rw [fanOut_cons, logOf_append, ih]
    by_cases hi : o.id = i
    · simp [logOf, Event.receivedBy, hi, List.replicate_succ]
    · simp [logOf, Event.receivedBy, hi, List.count_cons]

theorem fired_fanOut (message : String) (phase : Option State) (observers : List Observer) :
    fired (fanOut message phase observers) = [] := by
  induction observers with
  | nil => rfl
  | cons o rest ih =>
    rw [fanOut_cons, fired_append, ih]
    rfl

theorem deliveries_fanOut (message : String) (phase : Option State)
    (observers : List Observer) :
    deliveries (fanOut message phase observers)
      = observers.map fun o => (o.id, message) := by
  induction observers with
  | nil => rfl
  | cons o rest ih =>
    rw [fanOut_cons, deliveries_append, ih]
    rfl

theorem console_fanOut (message : String) (phase : Option State)
    (observers : List Observer) :
    console (fanOut message phase observers) = [] := by
  induction observers with
  | nil => rfl
  | cons o rest ih =>
    rw [fanOut_cons, console_append, ih]
    rfl

theorem fired_transitionTrace (s : State) : fired (transitionTrace s) = [] := by
  cases s <;> rfl

theorem fired_requestTrace (s : State) (observers : List Observer) :
    fired (requestTrace s observers) = [s.message] := by
  have h : requestTrace s observers
      = [⟨Event.cout s.banner, some s⟩, ⟨Event.notify s.message, some s⟩]
        ++ (fanOut s.message (some s) observers ++ transitionTrace s) := rfl
  rw [h, fired_append, fired_append, fired_fanOut, fired_transitionTrace]
  simp [fired, Event.firedMessage]

theorem logOf_notifyObservers (i : Nat) (message : String) (ctx : LunarLanderContext)
    (h : NonFailing ctx.observers) :
    logOf i (LunarLanderContext.notifyObservers message ctx).trace
      = List.replicate ((ctx.observers.map Observer.id).count i) message := by
  have ht : (LunarLanderContext.notifyObservers message ctx).trace
      = [⟨Event.notify message, ctx.currentState⟩]
        ++ fanOut message ctx.currentState ctx.observers := by
    rw [notifyObservers_nonFailing message ctx h]; rfl
  rw [ht, logOf_append, logOf_fanOut]
  rfl

theorem runCalls_cons (c : Call) (rest : List Call) :
    runCalls (c :: rest) = M.bind c.run (fun _ => runCalls rest) := rfl

theorem bind_ok {α β : Type} (m : M α) (f : α → M β) (ctx : LunarLanderContext) (a : α)
    (hv : (m ctx).value = Except.ok a) :
    M.bind m f ctx
      = ⟨(f a (m ctx).ctx).ctx, (m ctx).trace ++ (f a (m ctx).ctx).trace,
          (f a (m ctx).ctx).value⟩ := by
  unfold M.bind
  generalize m ctx = r at hv
  obtain ⟨c1, t1, v1⟩ := r
  simp only at hv
  subst hv
  rfl

theorem bind_error {α β : Type} (m : M α) (f : α → M β) (ctx : LunarLanderContext)
    (e : Fault) (hv : (m ctx).value = Except.error e) :
    M.bind m f ctx = ⟨(m ctx).ctx, (m ctx).trace, Except.error e⟩ := by
  unfold M.bind
  generalize m ctx = r at hv
  obtain ⟨c1, t1, v1⟩ := r
  simp only at hv
  subst hv
  rfl

theorem updateEach_frame (message : String) (observers : List Observer)
    (ctx : LunarLanderContext) :
    (updateEach message observers ctx).ctx = ctx
    ∧ (∀ e ∈ (updateEach message observers ctx).trace,
        e.phase = ctx.currentState ∧ e.event.text = none)
    ∧ (updateEach message observers ctx).value ≠ Except.error Fault.nullDeref := by
  induction observers with
  | nil => exact ⟨rfl, fun e he => absurd he (List.not_mem_nil e), fun hv => nomatch hv⟩
  | cons o rest ih =>
    have hb : updateEach message (o :: rest) ctx
        = M.bind (o.update message) (fun _ => updateEach message rest) ctx := rfl
    cases ho : o.throwsOn message with
    | none =>
      have hu : o.update message ctx
          = ⟨ctx, [⟨Event.update o.id message, ctx.currentState⟩], Except.ok ()⟩ := by
        simp [Observer.update, ho]
      have hv : (o.update message ctx).value = Except.ok () := by rw [hu]
      rw [hb, bind_ok _ _ _ () hv, hu]
      refine ⟨ih.1, ?_, ih.2.2⟩
      intro e he
      rcases List.mem_append.mp he with h1 | h1
      · rw [List.mem_singleton.mp h1]; exact ⟨rfl, rfl⟩
      · exact ih.2.1 e h1
    | some x =>
      have hu : o.update message ctx
          = ⟨ctx, [⟨Event.updateThrew o.id message, ctx.currentState⟩],
              Except.error (Fault.thrown x)⟩ := by
        simp [Observer.update, ho]
      have hv : (o.update message ctx).value = Except.error (Fault.thrown x) := by rw [hu]
      rw [hb, bind_error _ _ _ _ hv, hu]
      refine ⟨rfl, ?_, fun h => nomatch h⟩
      intro e he
      rw [List.mem_singleton.mp he]; exact ⟨rfl, rfl⟩

theorem notifyObservers_frame (message : String) (ctx : LunarLanderContext) :
    (LunarLanderContext.notifyObservers message ctx).ctx = ctx
    ∧ (∀ e ∈ (LunarLanderContext.notifyObservers message ctx).trace,
        e.phase = ctx.currentState ∧ e.event.text = none)
    ∧ (LunarLanderContext.notifyObservers message ctx).value
        ≠ Except.error Fault.nullDeref := by
  have hb : LunarLanderContext.notifyObservers message ctx
      = M.bind (emit (Event.notify message))
          (fun _ => (fun c => updateEach message c.observers c : M Unit)) ctx := rfl
  have hv : (emit (Event.notify message) ctx).value = Except.ok () := rfl
  have hf := updateEach_frame message ctx.observers ctx
  rw [hb, bind_ok _ _ _ () hv]
  refine ⟨hf.1, ?_, hf.2.2⟩
  intro e he
  rcases List.mem_append.mp he with h1 | h1
  · have h2 : e = ⟨Event.notify message, ctx.currentState⟩ := List.mem_singleton.mp h1
    rw [h2]; exact ⟨rfl, rfl⟩
  · exact hf.2.1 e h1

theorem request_ok (s : State) (observers : List Observer) (t1 : List Entry)
    (hr : LunarLanderContext.notifyObservers s.message ⟨some s, observers⟩
      = ⟨⟨some s, observers⟩, t1, Except.ok ()⟩) :
    LunarLanderContext.request ⟨some s, observers⟩
      = ⟨⟨some s.next, observers⟩,
          ⟨Event.cout s.banner, some s⟩ :: (t1 ++ transitionTrace s), Except.ok ()⟩ := by
  cases s <;>
    simp only [State.message] at hr <;>
    simp [LunarLanderContext.request, State.handle, DeployedInOrbit.handle,
      Descending.handle, EngineCutOff.handle, Landed.handle, tryCatchAll, bind_run, M.bind,
      cout, emit, hr, LunarLanderContext.setState, StateFactory.createState,
      transitionTrace, State.next, State.banner, marker]

theorem request_thrown (s : State) (observers : List Observer) (t1 : List Entry) (x : Exn)
    (hr : LunarLanderContext.notifyObservers s.message ⟨some s, observers⟩
      = ⟨⟨some s, observers⟩, t1, Except.error (Fault.thrown x)⟩) :
    LunarLanderContext.request ⟨some s, observers⟩
      = ⟨(LunarLanderContext.notifyObservers s.errorText ⟨some s, observers⟩).ctx,
          ⟨Event.cout s.banner, some s⟩
            :: (t1 ++ (LunarLanderContext.notifyObservers s.errorText
                  ⟨some s, observers⟩).trace),
          (LunarLanderContext.notifyObservers s.errorText ⟨some s, observers⟩).value⟩ := by
  cases s <;>
    simp only [State.message] at hr <;>
    simp [LunarLanderContext.request, State.handle, DeployedInOrbit.handle,
      Descending.handle, EngineCutOff.handle, Landed.handle, tryCatchAll, bind_run, M.bind,
      cout, emit, hr, State.errorText, State.banner]

theorem split_at_last {α : Type} (t : List α) (x y : α) (P : α → Prop)
    (hP : ∀ e ∈ t, ¬ P e) (hy : P y) (t1 t2 : List α) (h : t ++ [x] = t1 ++ y :: t2) :
    t2 = [] ∧ y = x := by
  rcases List.eq_nil_or_concat t2 with h2 | ⟨L, b, h2⟩
  · subst h2
    have h3 := List.append_inj_right' h rfl
    exact ⟨rfl, (List.cons.inj h3).1.symm⟩
  · rw [List.concat_eq_append] at h2
    subst h2
    have h3 : t ++ [x] = (t1 ++ y :: L) ++ [b] := by
      rw [h]; simp
    have h4 := List.append_inj_left' h3 rfl
    exact absurd hy (hP y (by rw [h4]; simp))

theorem res_eq {α : Type} (r : Res α) (c : LunarLanderContext) (v : Except Fault α)
    (hc : r.ctx = c) (hv : r.value = v) : r = ⟨c, r.trace, v⟩ := by
  obtain ⟨c1, t1, v1⟩ := r
  simp only at hc hv
  rw [hc, hv]

theorem banner_ne_marker (s : State) : Event.cout s.banner ≠ marker := by
  cases s <;> decide

theorem event_ne_marker (e : Event) (h : e.text = none) : e ≠ marker := by
  intro hm
  rw [hm] at h
  exact nomatch h

theorem request_shape (s : State) (observers : List Observer) :
    ∃ t : List Entry, (∀ e ∈ t, e.phase = some s ∧ e.event ≠ marker)
      ∧ ((LunarLanderContext.request ⟨some s, observers⟩).trace = t
        ∨ (s ≠ State.Landed
          ∧ (LunarLanderContext.request ⟨some s, observers⟩).trace
            = t ++ [⟨marker, some s.next⟩])) := by
  have hf := notifyObservers_frame s.message ⟨some s, observers⟩
  have hbanner : ∀ e ∈ [(⟨Event.cout s.banner, some s⟩ : Entry)],
      e.phase = some s ∧ e.event ≠ marker := by
    intro e he
    rw [List.mem_singleton.mp he]
    exact ⟨rfl, banner_ne_marker s⟩
  have h1 : ∀ e ∈ (LunarLanderContext.notifyObservers s.message ⟨some s, observers⟩).trace,
      e.phase = some s ∧ e.event ≠ marker := fun e he =>
    ⟨(hf.2.1 e he).1, event_ne_marker _ (hf.2.1 e he).2⟩
  cases hv : (LunarLanderContext.notifyObservers s.message ⟨some s, observers⟩).value with
  | ok u =>
    have hr : LunarLanderContext.notifyObservers s.message ⟨some s, observers⟩
        = ⟨⟨some s, observers⟩,
            (LunarLanderContext.notifyObservers s.message ⟨some s, observers⟩).trace,
            Except.ok ()⟩ := res_eq _ _ _ hf.1 hv
    refine ⟨⟨Event.cout s.banner, some s⟩
      :: (LunarLanderContext.notifyObservers s.message ⟨some s, observers⟩).trace, ?_, ?_⟩
    · intro e he
      rcases List.mem_cons.mp he with h2 | h2
      · exact hbanner e (by rw [h2]; exact List.mem_singleton_self _)
      · exact h1 e h2
    · rw [request_ok s observers _ hr]
      by_cases hs : s = State.Landed
      · left
        subst hs
        simp [transitionTrace]
      · right
        refine ⟨hs, ?_⟩
        simp [transitionTrace, hs]
  | error f =>
    cases f with
    | nullDeref => exact absurd hv hf.2.2
    | thrown x =>
      have hr : LunarLanderContext.notifyObservers s.message ⟨some s, observers⟩
          = ⟨⟨some s, observers⟩,
              (LunarLanderContext.notifyObservers s.message ⟨some s, observers⟩).trace,
              Except.error (Fault.thrown x)⟩ := res_eq _ _ _ hf.1 hv
      have hf2 := notifyObservers_frame s.errorText ⟨some s, observers⟩
      refine ⟨_, ?_, Or.inl (congrArg Res.trace (request_thrown s observers _ x hr))⟩
      intro e he
      rcases List.mem_cons.mp he with h2 | h2
      · exact hbanner e (by rw [h2]; exact List.mem_singleton_self _)
      · rcases List.mem_append.mp h2 with h3 | h3
        · exact h1 e h3
        · exact ⟨(hf2.2.1 e h3).1, event_ne_marker _ (hf2.2.1 e h3).2⟩

theorem console_requestTrace (s : State) (observers : List Observer) :
    console (requestTrace s observers) = s.banner :: console (transitionTrace s) := by
  have h : requestTrace s observers
      = [⟨Event.cout s.banner, some s⟩, ⟨Event.notify s.message, some s⟩]
        ++ (fanOut s.message (some s) observers ++ transitionTrace s) := rfl
  rw [h, console_append, console_append, console_fanOut]
  rfl

/-! ## The phase chain -/

/-- C5, as stated, fails: the factory returns null for the identifiers `orbit`,
`descending`, `engine-cutoff` and `landed`, and returns a `DeployedInOrbit` state for
`DeployedInOrbit`, which is none of those four strings. -/
theorem createState_spec_identifiers :
    StateFactory.createState "orbit" = none
    ∧ StateFactory.createState "descending" = none
    ∧ StateFactory.createState "engine-cutoff" = none
    ∧ StateFactory.createState "landed" = none
    ∧ StateFactory.createState "DeployedInOrbit" = some State.DeployedInOrbit
    ∧ "DeployedInOrbit" ∉ ["orbit", "descending", "engine-cutoff", "landed"] := by
  decide

/-- C5, amended: the factory returns a state of class `DeployedInOrbit`, `Descending`,
`EngineCutOff`, `Landed` for the class name itself, and null exactly for every other
string. -/
theorem createState_class_names :
    StateFactory.createState "DeployedInOrbit" = some State.DeployedInOrbit
    ∧ StateFactory.createState "Descending" = some State.Descending
    ∧ StateFactory.createState "EngineCutOff" = some State.EngineCutOff
    ∧ StateFactory.createState "Landed" = some State.Landed
    ∧ ∀ type : String, StateFactory.createState type = none
        ↔ type ∉ ["DeployedInOrbit", "Descending", "EngineCutOff", "Landed"] := by
  refine ⟨by decide, by decide, by decide, by decide, ?_⟩
  intro type
  unfold StateFactory.createState
  by_cases h1 : type = "DeployedInOrbit"
  · simp [h1]
  · by_cases h2 : type = "Descending"
    · simp [h2]
    · by_cases h3 : type = "EngineCutOff"
      · simp [h3]
      · by_cases h4 : type = "Landed"
        · simp [h4]
        · simp [h1, h2, h3, h4]

/-- C6: the factory returns null for `bogus`; evaluating the factory on any string inside
a computation returns the factory's value, emits nothing and leaves the context (current
state and observer list) as it was; and a caller that assigns the result of
`createState("bogus")` only when it is not null leaves the context as it was. -/
theorem createState_bogus_no_effect :
    StateFactory.createState "bogus" = none
    ∧ (∀ (type : String) (ctx : LunarLanderContext),
        (StateFactory.callCreateState type ctx).ctx = ctx
        ∧ (StateFactory.callCreateState type ctx).trace = []
        ∧ (StateFactory.callCreateState type ctx).value
            = Except.ok (StateFactory.createState type))
    ∧ (∀ ctx : LunarLanderContext,
        ((do
            let p ← StateFactory.callCreateState "bogus"
            match p with
            | none => pure ()
            | some st => LunarLanderContext.setState (some st)) : M Unit) ctx
          = ⟨ctx, [], Except.ok ()⟩) := by
  refine ⟨by decide, fun type ctx => ⟨rfl, rfl, rfl⟩, fun ctx => ?_⟩
  have hb : StateFactory.createState "bogus" = none := by decide
  simp [bind_run, M.bind, StateFactory.callCreateState, pure_run, hb, M.pure]

/-! ## Notification fan-out -/

/-- Observers that do not call back into the context.
With non-failing observers, `notifyObservers(message)` returns normally, leaves
the context (current state and observer list) as it was, and its trace is the entry of
the call followed by exactly one delivery of `message` per entry of the observer list, in
list order, and nothing else. -/
theorem passive_notify_trace (message : String) (ctx : LunarLanderContext)
    (h : NonFailing ctx.observers) :
    (LunarLanderContext.notifyObservers message ctx).ctx = ctx
    ∧ (LunarLanderContext.notifyObservers message ctx).value = Except.ok ()
    ∧ (LunarLanderContext.notifyObservers message ctx).trace
        = ⟨Event.notify message, ctx.currentState⟩
            :: ctx.observers.map (fun o => ⟨Event.update o.id message, ctx.currentState⟩)
    ∧ deliveries (LunarLanderContext.notifyObservers message ctx).trace
        = ctx.observers.map (fun o => (o.id, message))
    ∧ (deliveries (LunarLanderContext.notifyObservers message ctx).trace).length
        = ctx.observers.length := by
  have hd : deliveries (LunarLanderContext.notifyObservers message ctx).trace
      = ctx.observers.map (fun o => (o.id, message)) := by
    rw [notifyObservers_nonFailing message ctx h]
    exact deliveries_fanOut message ctx.currentState ctx.observers
  refine ⟨?_, ?_, ?_, hd, ?_⟩
  · rw [notifyObservers_nonFailing message ctx h]
  · rw [notifyObservers_nonFailing message ctx h]
  · rw [notifyObservers_nonFailing message ctx h]; rfl
  · rw [hd, List.length_map]

/-- C8, as stated, fails: in a context whose only observer throws, a `DiagnosticTool`
attached twice occurs twice in the observer list, yet a message notified afterwards
reaches it not at all. -/
theorem attached_twice_behind_thrower :
    ((do
        LunarLanderContext.attachObserver (DiagnosticTool 0)
        LunarLanderContext.attachObserver (DiagnosticTool 0)
        LunarLanderContext.notifyObservers "ping" : M Unit)
      ⟨some State.DeployedInOrbit, [ThrowingObserver 9]⟩).ctx.observers.map Observer.id
        = [9, 0, 0]
    ∧ logOf 0 ((do
        LunarLanderContext.attachObserver (DiagnosticTool 0)
        LunarLanderContext.attachObserver (DiagnosticTool 0)
        LunarLanderContext.notifyObservers "ping" : M Unit)
      ⟨some State.DeployedInOrbit, [ThrowingObserver 9]⟩).trace = [] := by
  exact ⟨rfl, rfl⟩

/-- C8, amended: `attachObserver(l)` returns normally, emits nothing, appends `l` at the
end of the observer list whether or not it is there already, and leaves the current state
as it was; and as long as no attached observer throws, a message notified after `l` was
attached twice reaches `l` twice more often than `l` occurred in the list before, so
exactly twice when it was not attached before, and in general a notified message reaches
an observer exactly as often as it occurs in the list. -/
theorem attachObserver_appends (ctx : LunarLanderContext) (l : Observer) :
    (LunarLanderContext.attachObserver l ctx).ctx.observers = ctx.observers ++ [l]
    ∧ (LunarLanderContext.attachObserver l ctx).ctx.currentState = ctx.currentState
    ∧ (LunarLanderContext.attachObserver l ctx).trace = []
    ∧ (LunarLanderContext.attachObserver l ctx).value = Except.ok ()
    ∧ (NonFailing (ctx.observers ++ [l]) → ∀ message : String,
        logOf l.id ((do
            LunarLanderContext.attachObserver l
            LunarLanderContext.attachObserver l
            LunarLanderContext.notifyObservers message : M Unit) ctx).trace
          = List.replicate ((ctx.observers.map Observer.id).count l.id + 2) message
        ∧ (l.id ∉ ctx.observers.map Observer.id →
            logOf l.id ((do
                LunarLanderContext.attachObserver l
                LunarLanderContext.attachObserver l
                LunarLanderContext.notifyObservers message : M Unit) ctx).trace
              = [message, message]))
    ∧ (NonFailing ctx.observers → ∀ (i : Nat) (message : String),
        logOf i (LunarLanderContext.notifyObservers message ctx).trace
          = List.replicate ((ctx.observers.map Observer.id).count i) message) := by
  refine ⟨rfl, rfl, rfl, rfl, ?_, fun h i message => logOf_notifyObservers i message ctx h⟩
  intro h message
  have h2 : NonFailing (ctx.observers ++ [l] ++ [l]) := by
    intro o ho
    rcases List.mem_append.mp ho with h1 | h1
    · exact h o h1
    · exact h o (List.mem_append_right _ h1)
  have hrun : ((do
        LunarLanderContext.attachObserver l
        LunarLanderContext.attachObserver l
        LunarLanderContext.notifyObservers message : M Unit) ctx).trace
      = (LunarLanderContext.notifyObservers message
          ⟨ctx.currentState, ctx.observers ++ [l] ++ [l]⟩).trace := by
    simp [bind_run, M.bind, LunarLanderContext.attachObserver]
  have hlog : logOf l.id ((do
        LunarLanderContext.attachObserver l
        LunarLanderContext.attachObserver l
        LunarLanderContext.notifyObservers message : M Unit) ctx).trace
      = List.replicate ((ctx.observers.map Observer.id).count l.id + 2) message := by
    rw [hrun, logOf_notifyObservers l.id message _ h2]
    simp
  refine ⟨hlog, fun hnew => ?_⟩
  rw [hlog, List.count_eq_zero_of_not_mem hnew]
  rfl

/-- Witness for C8: a `DiagnosticTool` attached twice behind another one. -/
theorem attachObserver_appends_witness :
    NonFailing ([DiagnosticTool 1] ++ [DiagnosticTool 0])
    ∧ logOf 0 ((do
        LunarLanderContext.attachObserver (DiagnosticTool 0)
        LunarLanderContext.attachObserver (DiagnosticTool 0)
        LunarLanderContext.notifyObservers "ping" : M Unit)
      ⟨some State.DeployedInOrbit, [DiagnosticTool 1]⟩).trace = ["ping", "ping"] :=
  ⟨diagnosticTool_nonFailing [1, 0],
    ((attachObserver_appends ⟨some State.DeployedInOrbit, [DiagnosticTool 1]⟩
      (DiagnosticTool 0)).2.2.2.2.1 (diagnosticTool_nonFailing [1, 0]) "ping").2
      (by decide)⟩

/-- Observers that do not call back into the context.
For a request served by a non-terminal state `s`, when no observer
throws the trace is the banner, the call of `notifyObservers`, one delivery of the action
notification per observer entry, all under the outgoing state, and then exactly one
transition marker, under the new state; and whether or not an observer throws, every
entry other than the marker, so every delivery, happens while the outgoing state is still
current, and nothing follows the marker within the request. -/
theorem passive_request_order (s : State) (hs : s ≠ State.Landed)
    (observers : List Observer) :
    (NonFailing observers →
      (LunarLanderContext.request ⟨some s, observers⟩).trace
          = ⟨Event.cout s.banner, some s⟩ :: ⟨Event.notify s.message, some s⟩
              :: (observers.map (fun o => ⟨Event.update o.id s.message, some s⟩)
                  ++ [⟨marker, some s.next⟩])
      ∧ console (LunarLanderContext.request ⟨some s, observers⟩).trace
          = [s.banner, "State transitioned.\n"]
      ∧ (LunarLanderContext.request ⟨some s, observers⟩).ctx.currentState = some s.next)
    ∧ (∀ e ∈ (LunarLanderContext.request ⟨some s, observers⟩).trace,
        e.event ≠ marker → e.phase = some s)
    ∧ (∀ e ∈ (LunarLanderContext.request ⟨some s, observers⟩).trace,
        e.event.delivery ≠ none → e.phase = some s)
    ∧ (∀ (t1 t2 : List Entry) (p : Option State),
        (LunarLanderContext.request ⟨some s, observers⟩).trace = t1 ++ ⟨marker, p⟩ :: t2 →
          t2 = [] ∧ p = some s.next) := by
  have hstamp : ∀ e ∈ (LunarLanderContext.request ⟨some s, observers⟩).trace,
      e.event ≠ marker → e.phase = some s := by
    intro e he hne
    obtain ⟨t, ht, hshape | ⟨_, hshape⟩⟩ := request_shape s observers
    · rw [hshape] at he
      exact (ht e he).1
    · rw [hshape] at he
      rcases List.mem_append.mp he with h1 | h1
      · exact (ht e h1).1
      · rw [List.mem_singleton.mp h1] at hne
        exact absurd rfl hne
  refine ⟨fun h => ?_, hstamp, fun e he hdel => hstamp e he ?_, fun t1 t2 p hsplit => ?_⟩
  · rw [request_nonFailing s observers h]
    refine ⟨?_, ?_, rfl⟩
    · simp [requestTrace, fanOut, transitionTrace, hs]
    · rw [console_requestTrace]
      simp [transitionTrace, hs, console, marker, Event.text]
  · intro hm
    rw [hm] at hdel
    exact hdel rfl
  · obtain ⟨t, ht, hshape | ⟨_, hshape⟩⟩ := request_shape s observers
    · have hmem : (⟨marker, p⟩ : Entry) ∈ t := by
        rw [← hshape, hsplit]; simp
      exact absurd rfl (ht _ hmem).2
    · rw [hshape] at hsplit
      have h2 := split_at_last t ⟨marker, some s.next⟩ ⟨marker, p⟩
        (fun e => e.event = marker) (fun e he => (ht e he).2) rfl t1 t2 hsplit
      exact ⟨h2.1, congrArg Entry.phase h2.2⟩

/-! ## Observers that throw -/

theorem update_returns (o : Observer) (message : String) (ctx : LunarLanderContext)
    (ho : o.throwsOn message = none) :
    o.update message ctx
      = ⟨ctx, [⟨Event.update o.id message, ctx.currentState⟩], Except.ok ()⟩ := by
  simp [Observer.update, ho]

theorem update_throws (o : Observer) (message : String) (ctx : LunarLanderContext) (x : Exn)
    (ho : o.throwsOn message = some x) :
    o.update message ctx
      = ⟨ctx, [⟨Event.updateThrew o.id message, ctx.currentState⟩],
          Except.error (Fault.thrown x)⟩ := by
  simp [Observer.update, ho]

theorem updateEach_cons (message : String) (o : Observer) (rest : List Observer) :
    updateEach message (o :: rest)
      = M.bind (o.update message) (fun _ => updateEach message rest) := rfl

theorem updateEach_quiet (message : String) (observers : List Observer)
    (h : ∀ o ∈ observers, o.throwsOn message = none) (ctx : LunarLanderContext) :
    updateEach message observers ctx
      = ⟨ctx, fanOut message ctx.currentState observers, Except.ok ()⟩ := by
  induction observers with
  | nil => rfl
  | cons o rest ih =>
    have hu := update_returns o message ctx (h o (List.mem_cons_self _ _))
    have hv : (o.update message ctx).value = Except.ok () := by rw [hu]
    rw [updateEach_cons, bind_ok _ _ _ () hv, hu,
      ih (fun x hx => h x (List.mem_cons_of_mem _ hx))]
    rfl

theorem updateEach_throws (message : String) (before after : List Observer) (l : Observer)
    (x : Exn) (hb : ∀ o ∈ before, o.throwsOn message = none)
    (hl : l.throwsOn message = some x) (ctx : LunarLanderContext) :
    updateEach message (before ++ l :: after) ctx
      = ⟨ctx, fanOut message ctx.currentState before
            ++ [⟨Event.updateThrew l.id message, ctx.currentState⟩],
          Except.error (Fault.thrown x)⟩ := by
  induction before with
  | nil =>
    have hu := update_throws l message ctx x hl
    have hv : (l.update message ctx).value = Except.error (Fault.thrown x) := by rw [hu]
    rw [List.nil_append, updateEach_cons, bind_error _ _ _ _ hv, hu]
    rfl
  | cons o rest ih =>
    have hu := update_returns o message ctx (hb o (List.mem_cons_self _ _))
    have hv : (o.update message ctx).value = Except.ok () := by rw [hu]
    rw [List.cons_append, updateEach_cons, bind_ok _ _ _ () hv, hu,
      ih (fun y hy => hb y (List.mem_cons_of_mem _ hy))]
    rfl

theorem notifyObservers_eq (message : String) (ctx : LunarLanderContext) :
    LunarLanderContext.notifyObservers message ctx
      = ⟨(updateEach message ctx.observers ctx).ctx,
          [⟨Event.notify message, ctx.currentState⟩]
            ++ (updateEach message ctx.observers ctx).trace,
          (updateEach message ctx.observers ctx).value⟩ := by
  have hb : LunarLanderContext.notifyObservers message ctx
      = M.bind (emit (Event.notify message))
          (fun _ => (fun c => updateEach message c.observers c : M Unit)) ctx := rfl
  have hv : (emit (Event.notify message) ctx).value = Except.ok () := rfl
  rw [hb, bind_ok _ _ _ () hv]
  rfl

theorem notifyObservers_quiet (message : String) (ctx : LunarLanderContext)
    (h : ∀ o ∈ ctx.observers, o.throwsOn message = none) :
    LunarLanderContext.notifyObservers message ctx
      = ⟨ctx, ⟨Event.notify message, ctx.currentState⟩
          :: fanOut message ctx.currentState ctx.observers, Except.ok ()⟩ := by
  rw [notifyObservers_eq, updateEach_quiet message ctx.observers h]
  rfl

theorem notifyObservers_throws (message : String) (cs : Option State)
    (before after : List Observer) (l : Observer) (x : Exn)
    (hb : ∀ o ∈ before, o.throwsOn message = none) (hl : l.throwsOn message = some x) :
    LunarLanderContext.notifyObservers message ⟨cs, before ++ l :: after⟩
      = ⟨⟨cs, before ++ l :: after⟩,
          ⟨Event.notify message, cs⟩
            :: (fanOut message cs before ++ [⟨Event.updateThrew l.id message, cs⟩]),
          Except.error (Fault.thrown x)⟩ := by
  rw [notifyObservers_eq]
  simp only [updateEach_throws message before after l x hb hl]
  rfl

theorem firstThrow_eq_none (message : String) (observers : List Observer) :
    firstThrow message observers = none
      ↔ ∀ o ∈ observers, o.throwsOn message = none := by
  induction observers with
  | nil => simp [firstThrow]
  | cons o rest ih =>
    cases ho : o.throwsOn message with
    | none => simp [firstThrow, ho, ih]
    | some x => simp [firstThrow, ho]

theorem updateEach_value (message : String) (observers : List Observer)
    (ctx : LunarLanderContext) :
    (updateEach message observers ctx).value = throwResult (firstThrow message observers)
    ∧ fired (updateEach message observers ctx).trace = [] := by
  induction observers with
  | nil => exact ⟨rfl, rfl⟩
  | cons o rest ih =>
    cases ho : o.throwsOn message with
    | none =>
      have hu := update_returns o message ctx ho
      have hv : (o.update message ctx).value = Except.ok () := by rw [hu]
      rw [updateEach_cons, bind_ok _ _ _ () hv, hu]
      refine ⟨?_, ?_⟩
      · simp only [firstThrow, ho]
        exact ih.1
      · simp only [fired_append, ih.2]
        rfl
    | some x =>
      have hu := update_throws o message ctx x ho
      have hv : (o.update message ctx).value = Except.error (Fault.thrown x) := by rw [hu]
      rw [updateEach_cons, bind_error _ _ _ _ hv, hu]
      refine ⟨?_, rfl⟩
      simp only [firstThrow, ho]
      rfl

theorem notifyObservers_value (message : String) (ctx : LunarLanderContext) :
    (LunarLanderContext.notifyObservers message ctx).ctx = ctx
    ∧ (LunarLanderContext.notifyObservers message ctx).value
        = throwResult (firstThrow message ctx.observers)
    ∧ fired (LunarLanderContext.notifyObservers message ctx).trace = [message] := by
  refine ⟨(notifyObservers_frame message ctx).1, ?_, ?_⟩
  · rw [notifyObservers_eq]
    exact (updateEach_value message ctx.observers ctx).1
  · rw [notifyObservers_eq]
    simp only [fired_append, (updateEach_value message ctx.observers ctx).2]
    rfl

theorem console_eq_nil (t : List Entry) (h : ∀ e ∈ t, e.event.text = none) :
    console t = [] := by
  induction t with
  | nil => rfl
  | cons e rest ih =>
    have h1 : console (e :: rest) = console [e] ++ console rest := console_append [e] rest
    have h2 : console [e] = [] := by
      simp [console, h e (List.mem_cons_self _ _)]
    rw [h1, h2, ih (fun y hy => h y (List.mem_cons_of_mem _ hy))]
    rfl

theorem request_quiet (s : State) (observers : List Observer)
    (h : ∀ o ∈ observers, o.throwsOn s.message = none) :
    LunarLanderContext.request ⟨some s, observers⟩
      = ⟨⟨some s.next, observers⟩, requestTrace s observers, Except.ok ()⟩ := by
  rw [request_ok s observers _ (notifyObservers_quiet s.message ⟨some s, observers⟩ h)]
  rfl

theorem request_failed (s : State) (observers : List Observer) (x : Exn)
    (hx : firstThrow s.message observers = some x) :
    (LunarLanderContext.request ⟨some s, observers⟩).ctx = ⟨some s, observers⟩
    ∧ (LunarLanderContext.request ⟨some s, observers⟩).value
        = throwResult (firstThrow s.errorText observers)
    ∧ fired (LunarLanderContext.request ⟨some s, observers⟩).trace
        = [s.message, s.errorText]
    ∧ console (LunarLanderContext.request ⟨some s, observers⟩).trace = [s.banner]
    ∧ (LunarLanderContext.request ⟨some s, observers⟩).trace
        = ⟨Event.cout s.banner, some s⟩
          :: ((LunarLanderContext.notifyObservers s.message ⟨some s, observers⟩).trace
            ++ (LunarLanderContext.notifyObservers s.errorText ⟨some s, observers⟩).trace) := by
  have hn1 := notifyObservers_value s.message ⟨some s, observers⟩
  have hn2 := notifyObservers_value s.errorText ⟨some s, observers⟩
  have hf1 := notifyObservers_frame s.message ⟨some s, observers⟩
  have hf2 := notifyObservers_frame s.errorText ⟨some s, observers⟩
  have hv : (LunarLanderContext.notifyObservers s.message ⟨some s, observers⟩).value
      = Except.error (Fault.thrown x) := by
    rw [hn1.2.1]
    simp only [hx]
    rfl
  have hr := request_thrown s observers _ x (res_eq _ _ _ hn1.1 hv)
  rw [hr]
  refine ⟨hn2.1, hn2.2.1, ?_, ?_, rfl⟩
  · have hsplit : (⟨Event.cout s.banner, some s⟩
          :: ((LunarLanderContext.notifyObservers s.message ⟨some s, observers⟩).trace
            ++ (LunarLanderContext.notifyObservers s.errorText ⟨some s, observers⟩).trace)
          : List Entry)
        = [⟨Event.cout s.banner, some s⟩]
          ++ ((LunarLanderContext.notifyObservers s.message ⟨some s, observers⟩).trace
            ++ (LunarLanderContext.notifyObservers s.errorText ⟨some s, observers⟩).trace) :=
      rfl
    simp only [hsplit, fired_append, hn1.2.2, hn2.2.2]
    rfl
  · have hsplit : (⟨Event.cout s.banner, some s⟩
          :: ((LunarLanderContext.notifyObservers s.message ⟨some s, observers⟩).trace
            ++ (LunarLanderContext.notifyObservers s.errorText ⟨some s, observers⟩).trace)
          : List Entry)
        = [⟨Event.cout s.banner, some s⟩]
          ++ ((LunarLanderContext.notifyObservers s.message ⟨some s, observers⟩).trace
            ++ (LunarLanderContext.notifyObservers s.errorText ⟨some s, observers⟩).trace) :=
      rfl
    simp only [hsplit, console_append,
      console_eq_nil _ (fun e he => (hf1.2.1 e he).2),
      console_eq_nil _ (fun e he => (hf2.2.1 e he).2)]
    rfl

/-! ## Replacing the state -/

/-- C16: `setState(p)` with a state object `p` returns normally, makes `p` the current
state whatever the state was before, leaves the observer list as it was, and its trace
is exactly one transition marker: nothing is fired and nothing delivered. -/
theorem setState_replaces (ctx : LunarLanderContext) (p : State) :
    (LunarLanderContext.setState (some p) ctx).ctx.currentState = some p
    ∧ (LunarLanderContext.setState (some p) ctx).ctx.observers = ctx.observers
    ∧ (LunarLanderContext.setState (some p) ctx).value = Except.ok ()
    ∧ (LunarLanderContext.setState (some p) ctx).trace = [⟨marker, some p⟩]
    ∧ console (LunarLanderContext.setState (some p) ctx).trace = ["State transitioned.\n"]
    ∧ fired (LunarLanderContext.setState (some p) ctx).trace = []
    ∧ deliveries (LunarLanderContext.setState (some p) ctx).trace = [] :=
  ⟨rfl, rfl, rfl, rfl, rfl, rfl, rfl⟩

/-- C17: `setState` does not check its argument: given the null pointer the factory
returns for `bogus`, it returns normally, still writes the transition marker and leaves
the context without a current state, and the next request dereferences the null pointer;
the same happens in every context. -/
theorem setState_null_unchecked :
    StateFactory.createState "bogus" = none
    ∧ ∀ ctx : LunarLanderContext,
        (LunarLanderContext.setState (StateFactory.createState "bogus") ctx).value
          = Except.ok ()
        ∧ (LunarLanderContext.setState (StateFactory.createState "bogus") ctx).trace
          = [⟨marker, none⟩]
        ∧ (LunarLanderContext.setState (StateFactory.createState "bogus") ctx).ctx
          = ⟨none, ctx.observers⟩
        ∧ (LunarLanderContext.request
            (LunarLanderContext.setState (StateFactory.createState "bogus") ctx).ctx).value
          = Except.error Fault.nullDeref
        ∧ ((do
              LunarLanderContext.setState (StateFactory.createState "bogus")
              LunarLanderContext.request : M Unit) ctx).value
          = Except.error Fault.nullDeref := by
  have hb : StateFactory.createState "bogus" = none := by decide
  refine ⟨hb, fun ctx => ?_⟩
  rw [hb]
  exact ⟨rfl, rfl, rfl, rfl, rfl⟩

/-! ## Failures of observers -/

/-- C11, as stated, fails: with an observer that throws on every message, a request in the
orbit state does not return normally; the exception thrown while the `catch` block
delivers the failure text reaches the caller. -/
theorem request_propagates :
    (LunarLanderContext.request ⟨some State.DeployedInOrbit, [ThrowingObserver 9]⟩).value
      = Except.error (Fault.thrown Exn.other) := by
  rfl

/-- C11, amended: a request on a context with a current state returns normally exactly
when no observer throws on the action notification of the state, or no observer throws on
the failure text of the state; it never dereferences a null pointer, and an exception that
reaches the caller was thrown on the failure text, inside the `catch` block, after an
observer had thrown on the action notification. -/
theorem request_returns_iff (s : State) (observers : List Observer) :
    ((LunarLanderContext.request ⟨some s, observers⟩).value = Except.ok ()
      ↔ ((∀ o ∈ observers, o.throwsOn s.message = none)
          ∨ (∀ o ∈ observers, o.throwsOn s.errorText = none)))
    ∧ (LunarLanderContext.request ⟨some s, observers⟩).value ≠ Except.error Fault.nullDeref
    ∧ (∀ x : Exn,
        (LunarLanderContext.request ⟨some s, observers⟩).value
            = Except.error (Fault.thrown x) →
          firstThrow s.errorText observers = some x
            ∧ firstThrow s.message observers ≠ none) := by
  cases hm : firstThrow s.message observers with
  | none =>
    have hq := (firstThrow_eq_none s.message observers).mp hm
    have hv : (LunarLanderContext.request ⟨some s, observers⟩).value = Except.ok () := by
      rw [request_quiet s observers hq]
    rw [hv]
    refine ⟨⟨fun _ => Or.inl hq, fun _ => rfl⟩, ?_, ?_⟩
    · intro h; cases h
    · intro x h; cases h
  | some y =>
    have hf := request_failed s observers y hm
    rw [hf.2.1]
    have hnot : ¬ ∀ o ∈ observers, o.throwsOn s.message = none := by
      intro hall
      rw [(firstThrow_eq_none s.message observers).mpr hall] at hm
      cases hm
    cases he : firstThrow s.errorText observers with
    | none =>
      have ht : throwResult none = Except.ok () := rfl
      rw [ht]
      refine ⟨⟨fun _ => Or.inr ((firstThrow_eq_none s.errorText observers).mp he),
        fun _ => rfl⟩, ?_, ?_⟩
      · intro h; cases h
      · intro x h; cases h
    | some z =>
      have ht : throwResult (some z) = Except.error (Fault.thrown z) := rfl
      rw [ht]
      refine ⟨⟨?_, ?_⟩, ?_, ?_⟩
      · intro h; cases h
      · intro h
        rcases h with h1 | h1
        · exact absurd h1 hnot
        · rw [(firstThrow_eq_none s.errorText observers).mpr h1] at he
          cases he
      · intro h; cases h
      · intro x h
        cases h
        exact ⟨rfl, fun h3 => by cases h3⟩

/-- Witness for C11: the second observer throws on the action notification of
`Descending` only, so the request returns normally. -/
theorem request_returns_iff_witness :
    (LunarLanderContext.request
      ⟨some State.Descending,
        [DiagnosticTool 0, FailsOn 1 "Descending: Engines are operational"]⟩).value
      = Except.ok () :=
  (request_returns_iff State.Descending
    [DiagnosticTool 0, FailsOn 1 "Descending: Engines are operational"]).1.mpr
    (Or.inr (by
      intro o ho
      simp only [List.mem_cons, List.mem_singleton, List.not_mem_nil, or_false] at ho
      rcases ho with h | h <;> rw [h] <;> decide))

/-- Observers that do not call back into the context.
When some observer throws on the action notification of the current state, the
request performs no transition: the context (current state and observer list) is as it
was before, the only console output is the banner of the state, and no transition marker
is in the trace. -/
theorem passive_failed_delivery (s : State) (observers : List Observer)
    (hfail : ∃ o ∈ observers, o.throwsOn s.message ≠ none) :
    (LunarLanderContext.request ⟨some s, observers⟩).ctx = ⟨some s, observers⟩
    ∧ (LunarLanderContext.request ⟨some s, observers⟩).ctx.currentState = some s
    ∧ (LunarLanderContext.request ⟨some s, observers⟩).ctx.observers = observers
    ∧ console (LunarLanderContext.request ⟨some s, observers⟩).trace = [s.banner]
    ∧ (∀ e ∈ (LunarLanderContext.request ⟨some s, observers⟩).trace, e.event ≠ marker) := by
  have hx : ∃ x, firstThrow s.message observers = some x := by
    cases hm : firstThrow s.message observers with
    | none =>
      obtain ⟨o, ho, hne⟩ := hfail
      exact absurd ((firstThrow_eq_none s.message observers).mp hm o ho) hne
    | some x => exact ⟨x, rfl⟩
  obtain ⟨x, hx⟩ := hx
  have hf := request_failed s observers x hx
  refine ⟨hf.1, by rw [hf.1], by rw [hf.1], hf.2.2.2.1, ?_⟩
  intro e he hm
  have h1 : e.event.text = some "State transitioned.\n" := by rw [hm]; rfl
  have h2 : "State transitioned.\n"
      ∈ console (LunarLanderContext.request ⟨some s, observers⟩).trace :=
    List.mem_filterMap.mpr ⟨e, he, h1⟩
  rw [hf.2.2.2.1, List.mem_singleton] at h2
  exact banner_ne_marker s (by rw [← h2]; rfl)

/-- C15, as stated, fails. In the descending state, when the observer at position 0
throws on the action notification only and the observer behind it throws on every
message, the failure text reaches observer 0 and never observer 1, and the request ends
with an exception; and when the observers at positions 0 and 1 both throw on the action
notification only, observer 0, which is before position 1, does not receive the action
notification. -/
theorem failure_text_not_to_all :
    deliveries (LunarLanderContext.request
        ⟨some State.Descending,
          [FailsOn 0 "Descending: Engines are operational", ThrowingObserver 1]⟩).trace
      = [(0, "Error during descent.")]
    ∧ (LunarLanderContext.request
        ⟨some State.Descending,
          [FailsOn 0 "Descending: Engines are operational", ThrowingObserver 1]⟩).value
      = Except.error (Fault.thrown Exn.other)
    ∧ deliveries (LunarLanderContext.request
        ⟨some State.Descending,
          [FailsOn 0 "Descending: Engines are operational",
            FailsOn 1 "Descending: Engines are operational"]⟩).trace
      = [(0, "Error during descent."), (1, "Error during descent.")] := by
  exact ⟨by decide, rfl, by decide⟩

/-- C15, amended: when the observer at position `k` is the first that throws on the action
notification of the current state, and no attached observer throws on the failure text of
that state, the request delivers the action notification to the observers before
position `k` and to no other, then fires the failure text of the state and delivers it
once per entry of the observer list, in list order; it returns normally and leaves the
context as it was. The failure texts are those of the four `catch` blocks. -/
theorem failure_converted (s : State) (before after : List Observer) (l : Observer)
    (x : Exn) (hb : ∀ o ∈ before, o.throwsOn s.message = none)
    (hl : l.throwsOn s.message = some x)
    (he : ∀ o ∈ before ++ l :: after, o.throwsOn s.errorText = none) :
    (LunarLanderContext.request ⟨some s, before ++ l :: after⟩).trace
        = [⟨Event.cout s.banner, some s⟩, ⟨Event.notify s.message, some s⟩]
          ++ before.map (fun o => ⟨Event.update o.id s.message, some s⟩)
          ++ [⟨Event.updateThrew l.id s.message, some s⟩, ⟨Event.notify s.errorText, some s⟩]
          ++ (before ++ l :: after).map (fun o => ⟨Event.update o.id s.errorText, some s⟩)
    ∧ deliveries (LunarLanderContext.request ⟨some s, before ++ l :: after⟩).trace
        = before.map (fun o => (o.id, s.message))
          ++ (before ++ l :: after).map (fun o => (o.id, s.errorText))
    ∧ fired (LunarLanderContext.request ⟨some s, before ++ l :: after⟩).trace
        = [s.message, s.errorText]
    ∧ (LunarLanderContext.request ⟨some s, before ++ l :: after⟩).value = Except.ok ()
    ∧ (LunarLanderContext.request ⟨some s, before ++ l :: after⟩).ctx
        = ⟨some s, before ++ l :: after⟩
    ∧ [State.DeployedInOrbit, State.Descending, State.EngineCutOff, State.Landed].map
          State.errorText
        = ["Error while deploying in orbit.", "Error during descent.",
            "Error during engine cut-off.", "Error during landing phase."] := by
  have h1 := notifyObservers_throws s.message (some s) before after l x hb hl
  have h2 := notifyObservers_quiet s.errorText ⟨some s, before ++ l :: after⟩ he
  have hr := request_thrown s (before ++ l :: after) _ x h1
  have htrace : (LunarLanderContext.request ⟨some s, before ++ l :: after⟩).trace
      = [⟨Event.cout s.banner, some s⟩, ⟨Event.notify s.message, some s⟩]
        ++ fanOut s.message (some s) before
        ++ [⟨Event.updateThrew l.id s.message, some s⟩, ⟨Event.notify s.errorText, some s⟩]
        ++ fanOut s.errorText (some s) (before ++ l :: after) := by
    rw [hr, h2]
    simp
  have hfm := firstThrow_eq_none s.message (before ++ l :: after)
  have hx : ∃ y, firstThrow s.message (before ++ l :: after) = some y := by
    cases hm : firstThrow s.message (before ++ l :: after) with
    | none =>
      have h3 := hfm.mp hm l (by simp)
      rw [hl] at h3
      cases h3
    | some y => exact ⟨y, rfl⟩
  obtain ⟨y, hy⟩ := hx
  have hf := request_failed s (before ++ l :: after) y hy
  refine ⟨htrace, ?_, hf.2.2.1, ?_, hf.1, rfl⟩
  · rw [htrace]
    simp only [deliveries_append, deliveries_fanOut]
    simp [deliveries, Event.delivery]
  · rw [hf.2.1, (firstThrow_eq_none s.errorText _).mpr he]
    rfl

/-- Witness for C15: in the descending state the second of three observers throws on the
action notification only. -/
theorem failure_converted_witness :
    deliveries (LunarLanderContext.request
        ⟨some State.Descending,
          [DiagnosticTool 0] ++ FailsOn 1 "Descending: Engines are operational"
            :: [DiagnosticTool 2]⟩).trace
      = [(0, "Descending: Engines are operational"), (0, "Error during descent."),
          (1, "Error during descent."), (2, "Error during descent.")] :=
  (failure_converted State.Descending [DiagnosticTool 0] [DiagnosticTool 2]
    (FailsOn 1 "Descending: Engines are operational") Exn.other
    (by intro o ho; rw [List.mem_singleton.mp ho]; rfl) (by decide)
    (by
      intro o ho
      simp only [List.singleton_append, List.mem_cons, List.mem_singleton,
        List.not_mem_nil, or_false] at ho
      rcases ho with h | h | h <;> rw [h] <;> decide)).2.1

/-! ## Validity of the current state -/

theorem request_valid (s : State) (observers : List Observer) :
    (∃ s2 : State,
      (LunarLanderContext.request ⟨some s, observers⟩).ctx.currentState = some s2)
    ∧ (LunarLanderContext.request ⟨some s, observers⟩).value ≠ Except.error Fault.nullDeref
    ∧ (∀ e ∈ (LunarLanderContext.request ⟨some s, observers⟩).trace, e.phase ≠ none) := by
  refine ⟨?_, ?_, ?_⟩
  · cases hm : firstThrow s.message observers with
    | none =>
      rw [request_quiet s observers ((firstThrow_eq_none s.message observers).mp hm)]
      exact ⟨s.next, rfl⟩
    | some x =>
      rw [(request_failed s observers x hm).1]
      exact ⟨s, rfl⟩
  · cases hm : firstThrow s.message observers with
    | none =>
      rw [request_quiet s observers ((firstThrow_eq_none s.message observers).mp hm)]
      intro h; cases h
    | some x =>
      rw [(request_failed s observers x hm).2.1]
      cases firstThrow s.errorText observers with
      | none => intro h; cases h
      | some y => intro h; cases h
  · intro e he hnone
    obtain ⟨t, ht, hshape | ⟨_, hshape⟩⟩ := request_shape s observers
    · rw [hshape] at he
      rw [(ht e he).1] at hnone
      cases hnone
    · rw [hshape] at he
      rcases List.mem_append.mp he with h1 | h1
      · rw [(ht e h1).1] at hnone
        cases hnone
      · rw [List.mem_singleton.mp h1] at hnone
        cases hnone

theorem run_valid (c : Call) (ctx : LunarLanderContext)
    (hv : ∃ s : State, ctx.currentState = some s) :
    (∃ s2 : State, (c.run ctx).ctx.currentState = some s2)
    ∧ (c.run ctx).value ≠ Except.error Fault.nullDeref
    ∧ (∀ e ∈ (c.run ctx).trace, e.phase ≠ none) := by
  obtain ⟨cs, observers⟩ := ctx
  obtain ⟨s, hs⟩ := hv
  simp only at hs
  subst hs
  cases c with
  | request => exact request_valid s observers
  | notifyObservers message =>
    have hf := notifyObservers_frame message ⟨some s, observers⟩
    have hr : (Call.notifyObservers message).run ⟨some s, observers⟩
        = LunarLanderContext.notifyObservers message ⟨some s, observers⟩ := rfl
    rw [hr]
    refine ⟨⟨s, by rw [hf.1]⟩, hf.2.2, ?_⟩
    intro e he hnone
    rw [(hf.2.1 e he).1] at hnone
    cases hnone
  | attachObserver o =>
    refine ⟨⟨s, rfl⟩, ?_, ?_⟩
    · intro h; cases h
    · intro e he
      cases he

theorem contextAfter_valid (cs : List Call) (ctx : LunarLanderContext)
    (hv : ∃ s : State, ctx.currentState = some s) :
    ∃ s2 : State, (contextAfter cs ctx).currentState = some s2 := by
  induction cs generalizing ctx with
  | nil => exact hv
  | cons c rest ih => exact ih (c.run ctx).ctx (run_valid c ctx hv).1

theorem runCalls_valid (cs : List Call) (ctx : LunarLanderContext)
    (hv : ∃ s : State, ctx.currentState = some s) :
    (∃ s2 : State, (runCalls cs ctx).ctx.currentState = some s2)
    ∧ (runCalls cs ctx).value ≠ Except.error Fault.nullDeref
    ∧ (∀ e ∈ (runCalls cs ctx).trace, e.phase ≠ none) := by
  induction cs generalizing ctx with
  | nil =>
    refine ⟨hv, ?_, ?_⟩
    · intro h; cases h
    · intro e he
      cases he
  | cons c rest ih =>
    have h1 := run_valid c ctx hv
    have h2 := ih (c.run ctx).ctx h1.1
    rw [runCalls_cons]
    cases hval : (c.run ctx).value with
    | ok u =>
      rw [bind_ok _ _ _ u hval]
      refine ⟨h2.1, h2.2.1, ?_⟩
      intro e he
      rcases List.mem_append.mp he with h3 | h3
      · exact h1.2.2 e h3
      · exact h2.2.2 e h3
    | error f =>
      rw [bind_error _ _ _ f hval]
      refine ⟨h1.1, ?_, h1.2.2⟩
      rw [← hval]
      exact h1.2.1

/-- Observers that do not call back into the context.
The constructor's identifier and the three successor identifiers of the handles
are recognized by the factory; so after any finite sequence of `request()`,
`attachObserver(l)` and `notifyObservers(m)` calls on a freshly constructed context,
whether the caller stops at the first exception or goes on, the current state is one of
the four states and not null, a further request does not dereference a null pointer, and
no event of the calls happens while the current state is null. -/
theorem passive_current_state_valid (cs : List Call) :
    LunarLanderContext.new.currentState = some State.DeployedInOrbit
    ∧ StateFactory.createState "Descending" = some State.Descending
    ∧ StateFactory.createState "EngineCutOff" = some State.EngineCutOff
    ∧ StateFactory.createState "Landed" = some State.Landed
    ∧ (∃ s ∈ specChain, (contextAfter cs LunarLanderContext.new).currentState = some s)
    ∧ (∃ s ∈ specChain, (runCalls cs LunarLanderContext.new).ctx.currentState = some s)
    ∧ (runCalls cs LunarLanderContext.new).value ≠ Except.error Fault.nullDeref
    ∧ (LunarLanderContext.request (contextAfter cs LunarLanderContext.new)).value
        ≠ Except.error Fault.nullDeref
    ∧ (∀ e ∈ (runCalls cs LunarLanderContext.new).trace, e.phase ≠ none)
    ∧ (∀ e ∈ (LunarLanderContext.request (contextAfter cs LunarLanderContext.new)).trace,
        e.phase ≠ none) := by
  have hnew : LunarLanderContext.new.currentState = some State.DeployedInOrbit := by decide
  have hv : ∃ s : State, LunarLanderContext.new.currentState = some s := ⟨_, hnew⟩
  have hmem : ∀ s : State, s ∈ specChain := by
    intro s
    cases s <;> simp [specChain]
  have h1 := contextAfter_valid cs LunarLanderContext.new hv
  have h2 := runCalls_valid cs LunarLanderContext.new hv
  have h3 := run_valid Call.request (contextAfter cs LunarLanderContext.new) h1
  obtain ⟨s1, hs1⟩ := h1
  obtain ⟨s2, hs2⟩ := h2.1
  exact ⟨hnew, by decide, by decide, by decide, ⟨s1, hmem s1, hs1⟩, ⟨s2, hmem s2, hs2⟩,
    h2.2.1, h3.2.1, h2.2.2, h3.2.2⟩

/-! ## The singleton -/

theorem instanceAfter_some (cs : List Call) (c : LunarLanderContext) :
    instanceAfter cs (some c) = some (contextAfter cs c) := by
  induction cs generalizing c with
  | nil => rfl
  | cons call rest ih => exact ih (call.run c).ctx

/-- C13: the first `getInstance()` constructs the context, with current state
`DeployedInOrbit` and no observers, and stores it in the static member; a later
`getInstance()` returns the stored object as it is and leaves the static member alone, so
the accessor is idempotent; and after any calls made through the accessor, the next
`getInstance()` returns the object with the current state and observer list those calls
left. -/
theorem getInstance_singleton :
    LunarLanderContext.getInstance none
        = (⟨some State.DeployedInOrbit, []⟩, some ⟨some State.DeployedInOrbit, []⟩)
    ∧ (∀ c : LunarLanderContext, LunarLanderContext.getInstance (some c) = (c, some c))
    ∧ (∀ inst : Option LunarLanderContext,
        LunarLanderContext.getInstance (LunarLanderContext.getInstance inst).2
          = LunarLanderContext.getInstance inst)
    ∧ (∀ cs : List Call,
        (LunarLanderContext.getInstance (instanceAfter cs none)).1
          = contextAfter cs LunarLanderContext.new)
    ∧ (∀ cs : List Call,
        (LunarLanderContext.getInstance (callOnInstance (runCalls cs) none).2).1
          = (runCalls cs LunarLanderContext.new).ctx) := by
  have hnew : LunarLanderContext.new = ⟨some State.DeployedInOrbit, []⟩ := by
    simp [LunarLanderContext.new, StateFactory.createState]
  refine ⟨?_, fun c => rfl, ?_, ?_, fun cs => rfl⟩
  · simp [LunarLanderContext.getInstance, hnew]
  · intro inst
    cases inst <;> rfl
  · intro cs
    cases cs with
    | nil => rfl
    | cons call rest =>
      have h : instanceAfter (call :: rest) none
          = instanceAfter rest (some (call.run LunarLanderContext.new).ctx) := rfl
      rw [h, instanceAfter_some]
      rfl

/-! ## Noninterference of the observers -/

theorem firstThrow_append (message : String) (a b : List Observer) :
    firstThrow message (a ++ b)
      = match firstThrow message a with
        | none => firstThrow message b
        | some x => some x := by
  induction a with
  | nil => rfl
  | cons o rest ih =>
    cases ho : o.throwsOn message with
    | none =>
      have h1 : firstThrow message (o :: (rest ++ b)) = firstThrow message (rest ++ b) := by
        simp only [firstThrow, ho]
      have h2 : firstThrow message (o :: rest) = firstThrow message rest := by
        simp only [firstThrow, ho]
      rw [List.cons_append, h1, h2, ih]
    | some x =>
      have h1 : firstThrow message (o :: (rest ++ b)) = some x := by
        simp only [firstThrow, ho]
      have h2 : firstThrow message (o :: rest) = some x := by
        simp only [firstThrow, ho]
      rw [List.cons_append, h1, h2]

theorem request_similar (s : State) (obs1 obs2 : List Observer)
    (hf : ∀ m : String, firstThrow m obs1 = firstThrow m obs2) :
    (LunarLanderContext.request ⟨some s, obs1⟩).ctx.currentState
        = (LunarLanderContext.request ⟨some s, obs2⟩).ctx.currentState
    ∧ (LunarLanderContext.request ⟨some s, obs1⟩).ctx.observers = obs1
    ∧ (LunarLanderContext.request ⟨some s, obs2⟩).ctx.observers = obs2
    ∧ (LunarLanderContext.request ⟨some s, obs1⟩).value
        = (LunarLanderContext.request ⟨some s, obs2⟩).value
    ∧ fired (LunarLanderContext.request ⟨some s, obs1⟩).trace
        = fired (LunarLanderContext.request ⟨some s, obs2⟩).trace := by
  cases hm : firstThrow s.message obs1 with
  | none =>
    have hm2 : firstThrow s.message obs2 = none := by rw [← hf, hm]
    rw [request_quiet s obs1 ((firstThrow_eq_none s.message obs1).mp hm),
      request_quiet s obs2 ((firstThrow_eq_none s.message obs2).mp hm2)]
    refine ⟨rfl, rfl, rfl, rfl, ?_⟩
    simp only [fired_requestTrace]
  | some x =>
    have hm2 : firstThrow s.message obs2 = some x := by rw [← hf, hm]
    have h1 := request_failed s obs1 x hm
    have h2 := request_failed s obs2 x hm2
    refine ⟨by rw [h1.1, h2.1], by rw [h1.1], by rw [h2.1], ?_, ?_⟩
    · rw [h1.2.1, h2.2.1, hf]
    · rw [h1.2.2.1, h2.2.2.1]

theorem run_similar (c : Call) (ctx1 ctx2 : LunarLanderContext)
    (hs : ctx1.currentState = ctx2.currentState)
    (hf : ∀ m : String, firstThrow m ctx1.observers = firstThrow m ctx2.observers) :
    (c.run ctx1).ctx.currentState = (c.run ctx2).ctx.currentState
    ∧ (∀ m : String,
        firstThrow m (c.run ctx1).ctx.observers = firstThrow m (c.run ctx2).ctx.observers)
    ∧ (c.run ctx1).value = (c.run ctx2).value
    ∧ fired (c.run ctx1).trace = fired (c.run ctx2).trace := by
  obtain ⟨cs1, obs1⟩ := ctx1
  obtain ⟨cs2, obs2⟩ := ctx2
  simp only at hs hf
  subst hs
  cases c with
  | request =>
    cases cs1 with
    | none => exact ⟨rfl, hf, rfl, rfl⟩
    | some s =>
      have h := request_similar s obs1 obs2 hf
      have hr1 : Call.request.run ⟨some s, obs1⟩
          = LunarLanderContext.request ⟨some s, obs1⟩ := rfl
      have hr2 : Call.request.run ⟨some s, obs2⟩
          = LunarLanderContext.request ⟨some s, obs2⟩ := rfl
      rw [hr1, hr2]
      refine ⟨h.1, ?_, h.2.2.2.1, h.2.2.2.2⟩
      rw [h.2.1, h.2.2.1]
      exact hf
  | notifyObservers message =>
    have h1 := notifyObservers_value message ⟨cs1, obs1⟩
    have h2 := notifyObservers_value message ⟨cs1, obs2⟩
    have hr1 : (Call.notifyObservers message).run ⟨cs1, obs1⟩
        = LunarLanderContext.notifyObservers message ⟨cs1, obs1⟩ := rfl
    have hr2 : (Call.notifyObservers message).run ⟨cs1, obs2⟩
        = LunarLanderContext.notifyObservers message ⟨cs1, obs2⟩ := rfl
    rw [hr1, hr2]
    refine ⟨by rw [h1.1, h2.1], ?_, ?_, ?_⟩
    · rw [h1.1, h2.1]
      exact hf
    · rw [h1.2.1, h2.2.1]
      exact congrArg throwResult (hf message)
    · rw [h1.2.2, h2.2.2]
  | attachObserver o =>
    refine ⟨rfl, ?_, rfl, rfl⟩
    intro m
    have hr1 : ((Call.attachObserver o).run ⟨cs1, obs1⟩).ctx.observers = obs1 ++ [o] := rfl
    have hr2 : ((Call.attachObserver o).run ⟨cs1, obs2⟩).ctx.observers = obs2 ++ [o] := rfl
    rw [hr1, hr2, firstThrow_append, firstThrow_append, hf m]

theorem runCalls_similar (cs : List Call) (ctx1 ctx2 : LunarLanderContext)
    (hs : ctx1.currentState = ctx2.currentState)
    (hf : ∀ m : String, firstThrow m ctx1.observers = firstThrow m ctx2.observers) :
    (runCalls cs ctx1).ctx.currentState = (runCalls cs ctx2).ctx.currentState
    ∧ (runCalls cs ctx1).value = (runCalls cs ctx2).value
    ∧ fired (runCalls cs ctx1).trace = fired (runCalls cs ctx2).trace := by
  induction cs generalizing ctx1 ctx2 with
  | nil => exact ⟨hs, rfl, rfl⟩
  | cons c rest ih =>
    have h1 := run_similar c ctx1 ctx2 hs hf
    have h2 := ih (c.run ctx1).ctx (c.run ctx2).ctx h1.1 h1.2.1
    rw [runCalls_cons]
    cases hv : (c.run ctx1).value with
    | ok u =>
      have hv2 : (c.run ctx2).value = Except.ok u := by rw [← h1.2.2.1, hv]
      rw [bind_ok _ _ _ u hv, bind_ok _ _ _ u hv2]
      refine ⟨h2.1, h2.2.1, ?_⟩
      simp only [fired_append, h1.2.2.2, h2.2.2]
    | error f =>
      have hv2 : (c.run ctx2).value = Except.error f := by rw [← h1.2.2.1, hv]
      rw [bind_error _ _ _ f hv, bind_error _ _ _ f hv2]
      exact ⟨h1.1, rfl, h1.2.2.2⟩

theorem contextAfter_similar (cs : List Call) (ctx1 ctx2 : LunarLanderContext)
    (hs : ctx1.currentState = ctx2.currentState)
    (hf : ∀ m : String, firstThrow m ctx1.observers = firstThrow m ctx2.observers) :
    (contextAfter cs ctx1).currentState = (contextAfter cs ctx2).currentState := by
  induction cs generalizing ctx1 ctx2 with
  | nil => exact hs
  | cons c rest ih =>
    have h1 := run_similar c ctx1 ctx2 hs hf
    exact ih (c.run ctx1).ctx (c.run ctx2).ctx h1.1 h1.2.1

theorem firstThrow_nonFailing (observers : List Observer) (h : NonFailing observers)
    (m : String) : firstThrow m observers = none :=
  (firstThrow_eq_none m observers).mpr fun o ho => h o ho m

/-- Observers that do not call back into the context.
Two contexts with the same current state, each with its own list of observers
that do not throw, go through any common sequence of `request()`, `notifyObservers(m)` and
`attachObserver(l)` calls alike: the calls end the same way, the current states after them
are equal and the sequences of messages fired are equal, whether the caller stops at the
first exception or goes on. With an observer that throws in one of the two lists this
fails: the request in the orbit state then leaves different current states. -/
theorem passive_observers_similar (ctx1 ctx2 : LunarLanderContext)
    (hs : ctx1.currentState = ctx2.currentState) (h1 : NonFailing ctx1.observers)
    (h2 : NonFailing ctx2.observers) (cs : List Call) :
    (runCalls cs ctx1).ctx.currentState = (runCalls cs ctx2).ctx.currentState
    ∧ fired (runCalls cs ctx1).trace = fired (runCalls cs ctx2).trace
    ∧ (runCalls cs ctx1).value = (runCalls cs ctx2).value
    ∧ (contextAfter cs ctx1).currentState = (contextAfter cs ctx2).currentState
    ∧ (LunarLanderContext.request ⟨some State.DeployedInOrbit, []⟩).ctx.currentState
        ≠ (LunarLanderContext.request
            ⟨some State.DeployedInOrbit, [ThrowingObserver 9]⟩).ctx.currentState := by
  have hf : ∀ m : String, firstThrow m ctx1.observers = firstThrow m ctx2.observers :=
    fun m => by
      rw [firstThrow_nonFailing _ h1 m, firstThrow_nonFailing _ h2 m]
  have hr := runCalls_similar cs ctx1 ctx2 hs hf
  exact ⟨hr.1, hr.2.2, hr.2.1, contextAfter_similar cs ctx1 ctx2 hs hf, by decide⟩

/-! ## Observers that do not call back -/

theorem reentrant_update_eq (calls : Callbacks) (o : Observer) (message : String)
    (h : calls o.id message = []) (ctx : LunarLanderContext) :
    Reentrant.update calls o message ctx = o.update message ctx := by
  cases ho : o.throwsOn message with
  | none =>
    simp [Reentrant.update, h, ho, Reentrant.runAll, bind_run, M.bind, emit, pure_run,
      Observer.update]
  | some x =>
    simp [Reentrant.update, h, ho, Reentrant.runAll, bind_run, M.bind, emit, pure_run,
      throwExn, Observer.update]

theorem reentrant_updateEach_eq (calls : Callbacks) (message : String)
    (observers : List Observer) (h : NoCallbacks calls observers)
    (ctx : LunarLanderContext) :
    Reentrant.updateEach calls message observers ctx = updateEach message observers ctx := by
  induction observers generalizing ctx with
  | nil => rfl
  | cons o rest ih =>
    have h1 : Reentrant.updateEach calls message (o :: rest) ctx
        = M.bind (Reentrant.update calls o message)
            (fun _ => Reentrant.updateEach calls message rest) ctx := rfl
    have h2 : Reentrant.update calls o message = o.update message :=
      funext fun c => reentrant_update_eq calls o message
        (h o (List.mem_cons_self _ _) message) c
    have h3 : Reentrant.updateEach calls message rest = updateEach message rest :=
      funext fun c => ih (fun x hx => h x (List.mem_cons_of_mem _ hx)) c
    rw [h1, h2, h3, updateEach_cons]

theorem reentrant_notifyObservers_eq (calls : Callbacks) (message : String)
    (ctx : LunarLanderContext) (h : NoCallbacks calls ctx.observers) :
    Reentrant.notifyObservers calls message ctx
      = LunarLanderContext.notifyObservers message ctx := by
  have h1 : Reentrant.notifyObservers calls message ctx
      = M.bind (emit (Event.notify message))
          (fun _ => (fun c => Reentrant.updateEach calls message c.observers c : M Unit))
          ctx := rfl
  have hv : (emit (Event.notify message) ctx).value = Except.ok () := rfl
  rw [h1, bind_ok _ _ _ () hv, notifyObservers_eq]
  have h2 : (emit (Event.notify message) ctx).ctx = ctx := rfl
  rw [h2, reentrant_updateEach_eq calls message ctx.observers h ctx]
  rfl

theorem reentrant_request_ok (calls : Callbacks) (s : State) (observers : List Observer)
    (t1 : List Entry)
    (hr : Reentrant.notifyObservers calls s.message ⟨some s, observers⟩
      = ⟨⟨some s, observers⟩, t1, Except.ok ()⟩) :
    Reentrant.request calls ⟨some s, observers⟩
      = ⟨⟨some s.next, observers⟩,
          ⟨Event.cout s.banner, some s⟩ :: (t1 ++ transitionTrace s), Except.ok ()⟩ := by
  cases s <;>
    simp only [State.message] at hr <;>
    simp [Reentrant.request, Reentrant.handle, Reentrant.DeployedInOrbit.handle,
      Reentrant.Descending.handle, Reentrant.EngineCutOff.handle, Reentrant.Landed.handle,
      tryCatchAll, bind_run, M.bind, cout, emit, hr, LunarLanderContext.setState,
      StateFactory.createState, transitionTrace, State.next, State.banner, marker]

theorem reentrant_request_thrown (calls : Callbacks) (s : State) (observers : List Observer)
    (t1 : List Entry) (x : Exn)
    (hr : Reentrant.notifyObservers calls s.message ⟨some s, observers⟩
      = ⟨⟨some s, observers⟩, t1, Except.error (Fault.thrown x)⟩) :
    Reentrant.request calls ⟨some s, observers⟩
      = ⟨(Reentrant.notifyObservers calls s.errorText ⟨some s, observers⟩).ctx,
          ⟨Event.cout s.banner, some s⟩
            :: (t1 ++ (Reentrant.notifyObservers calls s.errorText
                  ⟨some s, observers⟩).trace),
          (Reentrant.notifyObservers calls s.errorText ⟨some s, observers⟩).value⟩ := by
  cases s <;>
    simp only [State.message] at hr <;>
    simp [Reentrant.request, Reentrant.handle, Reentrant.DeployedInOrbit.handle,
      Reentrant.Descending.handle, Reentrant.EngineCutOff.handle, Reentrant.Landed.handle,
      tryCatchAll, bind_run, M.bind, cout, emit, hr, State.errorText, State.banner]

theorem reentrant_request_eq (calls : Callbacks) (ctx : LunarLanderContext)
    (h : NoCallbacks calls ctx.observers) :
    Reentrant.request calls ctx = LunarLanderContext.request ctx := by
  obtain ⟨cs, observers⟩ := ctx
  simp only at h
  cases cs with
  | none => rfl
  | some s =>
    have hn : ∀ m : String, Reentrant.notifyObservers calls m ⟨some s, observers⟩
        = LunarLanderContext.notifyObservers m ⟨some s, observers⟩ := fun m =>
      reentrant_notifyObservers_eq calls m ⟨some s, observers⟩ h
    have hf := notifyObservers_frame s.message ⟨some s, observers⟩
    cases hv : (LunarLanderContext.notifyObservers s.message ⟨some s, observers⟩).value with
    | ok u =>
      have hr := res_eq _ _ _ hf.1 hv
      rw [request_ok s observers _ hr]
      exact reentrant_request_ok calls s observers _ (by rw [hn]; exact hr)
    | error f =>
      cases f with
      | nullDeref => exact absurd hv hf.2.2
      | thrown x =>
        have hr := res_eq _ _ _ hf.1 hv
        rw [request_thrown s observers _ x hr,
          reentrant_request_thrown calls s observers _ x (by rw [hn]; exact hr), hn]

theorem run_observers (c : Call) (ctx : LunarLanderContext) :
    (c.run ctx).ctx.observers = ctx.observers ++ c.attached := by
  obtain ⟨cs, observers⟩ := ctx
  cases c with
  | request =>
    cases cs with
    | none => simp [Call.run, LunarLanderContext.request, Call.attached]
    | some s =>
      have hr : Call.request.run ⟨some s, observers⟩
          = LunarLanderContext.request ⟨some s, observers⟩ := rfl
      rw [hr]
      cases hm : firstThrow s.message observers with
      | none =>
        rw [request_quiet s observers ((firstThrow_eq_none s.message observers).mp hm)]
        simp [Call.attached]
      | some x =>
        rw [(request_failed s observers x hm).1]
        simp [Call.attached]
  | notifyObservers message =>
    have hr : (Call.notifyObservers message).run ⟨cs, observers⟩
        = LunarLanderContext.notifyObservers message ⟨cs, observers⟩ := rfl
    rw [hr, (notifyObservers_frame message ⟨cs, observers⟩).1]
    simp [Call.attached]
  | attachObserver o => rfl

theorem reentrant_run_eq (calls : Callbacks) (c : Call) (ctx : LunarLanderContext)
    (h : NoCallbacks calls ctx.observers) :
    Reentrant.run calls c ctx = c.run ctx := by
  cases c with
  | request => exact reentrant_request_eq calls ctx h
  | notifyObservers message => exact reentrant_notifyObservers_eq calls message ctx h
  | attachObserver o => rfl

theorem noCallbacks_step (calls : Callbacks) (c : Call) (rest : List Call)
    (ctx : LunarLanderContext)
    (h : NoCallbacks calls (ctx.observers ++ attachedBy (c :: rest))) :
    NoCallbacks calls ctx.observers
    ∧ NoCallbacks calls ((c.run ctx).ctx.observers ++ attachedBy rest) := by
  have ha : attachedBy (c :: rest) = c.attached ++ attachedBy rest := by
    simp [attachedBy]
  refine ⟨fun o ho => h o (List.mem_append_left _ ho), ?_⟩
  rw [run_observers, List.append_assoc, ← ha]
  exact h

theorem reentrant_runCalls_eq (calls : Callbacks) (cs : List Call)
    (ctx : LunarLanderContext) (h : NoCallbacks calls (ctx.observers ++ attachedBy cs)) :
    Reentrant.runCalls calls cs ctx = runCalls cs ctx := by
  induction cs generalizing ctx with
  | nil => rfl
  | cons c rest ih =>
    have hstep := noCallbacks_step calls c rest ctx h
    have h1 : Reentrant.runCalls calls (c :: rest) ctx
        = M.bind (Reentrant.run calls c) (fun _ => Reentrant.runCalls calls rest) ctx := rfl
    have hrun := reentrant_run_eq calls c ctx hstep.1
    rw [h1, runCalls_cons]
    cases hv : (c.run ctx).value with
    | ok u =>
      have hv2 : (Reentrant.run calls c ctx).value = Except.ok u := by rw [hrun, hv]
      rw [bind_ok _ _ _ u hv, bind_ok _ _ _ u hv2, hrun, ih (c.run ctx).ctx hstep.2]
    | error f =>
      have hv2 : (Reentrant.run calls c ctx).value = Except.error f := by rw [hrun, hv]
      rw [bind_error _ _ _ f hv, bind_error _ _ _ f hv2, hrun]

theorem reentrant_contextAfter_eq (calls : Callbacks) (cs : List Call)
    (ctx : LunarLanderContext) (h : NoCallbacks calls (ctx.observers ++ attachedBy cs)) :
    Reentrant.contextAfter calls cs ctx = contextAfter cs ctx := by
  induction cs generalizing ctx with
  | nil => rfl
  | cons c rest ih =>
    have hstep := noCallbacks_step calls c rest ctx h
    have h1 : Reentrant.contextAfter calls (c :: rest) ctx
        = Reentrant.contextAfter calls rest (Reentrant.run calls c ctx).ctx := rfl
    have h2 : contextAfter (c :: rest) ctx = contextAfter rest (c.run ctx).ctx := rfl
    rw [h1, h2, reentrant_run_eq calls c ctx hstep.1, ih (c.run ctx).ctx hstep.2]

theorem contextAfter_observers (cs : List Call) (ctx : LunarLanderContext) :
    (contextAfter cs ctx).observers = ctx.observers ++ attachedBy cs := by
  induction cs generalizing ctx with
  | nil => simp [contextAfter, attachedBy]
  | cons c rest ih =>
    have h2 : contextAfter (c :: rest) ctx = contextAfter rest (c.run ctx).ctx := rfl
    have ha : attachedBy (c :: rest) = c.attached ++ attachedBy rest := by
      simp [attachedBy]
    rw [h2, ih, run_observers, ha, List.append_assoc]

theorem noCallbacks_onlyCallback (target : Nat) (state : Option State)
    (observers : List Observer) (h : target ∉ observers.map Observer.id) :
    NoCallbacks (onlyCallback target state) observers := by
  intro o ho message
  have hne : o.id ≠ target := fun heq => h (heq ▸ List.mem_map_of_mem _ ho)
  simp [onlyCallback, hne]

/-! ## Notification fan-out with observers that may call back -/

/-- C7, as stated, fails: an observer that does not fail, and whose `update` calls
`setState(createState("bogus"))` on the context, is notified in the orbit state;
`notifyObservers` returns normally and the context is left without a current state. -/
theorem notify_callback_replaces_state :
    NonFailing [Returning 1]
    ∧ (Reentrant.notifyObservers (onlyCallback 1 (StateFactory.createState "bogus")) "x"
        ⟨some State.DeployedInOrbit, [Returning 1]⟩).value = Except.ok ()
    ∧ (Reentrant.notifyObservers (onlyCallback 1 (StateFactory.createState "bogus")) "x"
        ⟨some State.DeployedInOrbit, [Returning 1]⟩).ctx.currentState = none := by
  exact ⟨fun o _ _ => by simp_all [Returning], rfl, by decide⟩

/-- C7, amended: with observers that neither fail nor call back into the context,
`notifyObservers(message)` returns normally, leaves the context (current state and
observer list) as it was, and its trace is the entry of the call followed by exactly one
delivery of `message` per entry of the observer list, in list order, and nothing else. -/
theorem notifyObservers_delivers (calls : Callbacks) (message : String)
    (ctx : LunarLanderContext) (h : NonFailing ctx.observers)
    (hc : NoCallbacks calls ctx.observers) :
    (Reentrant.notifyObservers calls message ctx).ctx = ctx
    ∧ (Reentrant.notifyObservers calls message ctx).value = Except.ok ()
    ∧ (Reentrant.notifyObservers calls message ctx).trace
        = ⟨Event.notify message, ctx.currentState⟩
            :: ctx.observers.map (fun o => ⟨Event.update o.id message, ctx.currentState⟩)
    ∧ deliveries (Reentrant.notifyObservers calls message ctx).trace
        = ctx.observers.map (fun o => (o.id, message))
    ∧ (deliveries (Reentrant.notifyObservers calls message ctx).trace).length
        = ctx.observers.length := by
  rw [reentrant_notifyObservers_eq calls message ctx hc]
  exact passive_notify_trace message ctx h

/-- Witness for C7: three entries, one observer attached twice; the only observer that
calls back is not attached. -/
theorem notifyObservers_delivers_witness :
    deliveries (Reentrant.notifyObservers (onlyCallback 9 none) "ping"
        ⟨some State.Descending, [DiagnosticTool 2, DiagnosticTool 1, DiagnosticTool 2]⟩).trace
      = [(2, "ping"), (1, "ping"), (2, "ping")] :=
  (notifyObservers_delivers (onlyCallback 9 none) "ping"
    ⟨some State.Descending, [DiagnosticTool 2, DiagnosticTool 1, DiagnosticTool 2]⟩
    (diagnosticTool_nonFailing [2, 1, 2])
    (noCallbacks_onlyCallback 9 none _ (by decide))).2.2.2.1

/-! ## Notify, then transition, with observers that may call back -/

/-- C10, as stated, fails. In the orbit state with a `DiagnosticTool` followed by an
observer that throws, a request delivers the action notification to the first observer
and writes no transition marker; the current state stays `DeployedInOrbit`. And with two
observers that do not fail, the first of which calls `setState(createState("Landed"))`
from its `update`, a marker is written in the middle of the fan-out and the second
observer receives the action notification of the orbit state while `Landed` is current. -/
theorem request_order_broken :
    console (Reentrant.request (onlyCallback 7 (StateFactory.createState "Landed"))
        ⟨some State.DeployedInOrbit, [DiagnosticTool 0, ThrowingObserver 9]⟩).trace
      = ["Lunar Lander is deployed in orbit. Preparing for descent.\n"]
    ∧ (Reentrant.request (onlyCallback 7 (StateFactory.createState "Landed"))
        ⟨some State.DeployedInOrbit, [DiagnosticTool 0, ThrowingObserver 9]⟩).ctx.currentState
      = some State.DeployedInOrbit
    ∧ (Reentrant.request (onlyCallback 7 (StateFactory.createState "Landed"))
        ⟨some State.DeployedInOrbit, [Returning 7, DiagnosticTool 1]⟩).trace
      = [⟨Event.cout "Lunar Lander is deployed in orbit. Preparing for descent.\n",
            some State.DeployedInOrbit⟩,
          ⟨Event.notify "Deployed in Orbit: Preparing for descent",
            some State.DeployedInOrbit⟩,
          ⟨Event.update 7 "Deployed in Orbit: Preparing for descent",
            some State.DeployedInOrbit⟩,
          ⟨Event.cout "State transitioned.\n", some State.Landed⟩,
          ⟨Event.update 1 "Deployed in Orbit: Preparing for descent", some State.Landed⟩,
          ⟨Event.cout "State transitioned.\n", some State.Descending⟩] := by
  exact ⟨by decide, by decide, by decide⟩

/-- C10, amended: for a request served by a non-terminal state `s` whose observers do not
call back into the context, when no observer throws the trace is the banner, the call of
`notifyObservers`, one delivery of the action notification per observer entry, all under
the outgoing state, and then exactly one transition marker, under the new state; and
whether or not an observer throws, every entry other than the marker, so every delivery,
happens while the outgoing state is still current, and nothing follows the marker within
the request. -/
theorem notify_then_transition (calls : Callbacks) (s : State) (hs : s ≠ State.Landed)
    (observers : List Observer) (hc : NoCallbacks calls observers) :
    (NonFailing observers →
      (Reentrant.request calls ⟨some s, observers⟩).trace
          = ⟨Event.cout s.banner, some s⟩ :: ⟨Event.notify s.message, some s⟩
              :: (observers.map (fun o => ⟨Event.update o.id s.message, some s⟩)
                  ++ [⟨marker, some s.next⟩])
      ∧ console (Reentrant.request calls ⟨some s, observers⟩).trace
          = [s.banner, "State transitioned.\n"]
      ∧ (Reentrant.request calls ⟨some s, observers⟩).ctx.currentState = some s.next)
    ∧ (∀ e ∈ (Reentrant.request calls ⟨some s, observers⟩).trace,
        e.event ≠ marker → e.phase = some s)
    ∧ (∀ e ∈ (Reentrant.request calls ⟨some s, observers⟩).trace,
        e.event.delivery ≠ none → e.phase = some s)
    ∧ (∀ (t1 t2 : List Entry) (p : Option State),
        (Reentrant.request calls ⟨some s, observers⟩).trace = t1 ++ ⟨marker, p⟩ :: t2 →
          t2 = [] ∧ p = some s.next) := by
  rw [reentrant_request_eq calls ⟨some s, observers⟩ hc]
  exact passive_request_order s hs observers

/-- Witness for C10: a request served by `Descending` with two observers that do not call
back. -/
theorem notify_then_transition_witness :
    State.Descending ≠ State.Landed
    ∧ NonFailing [DiagnosticTool 0, DiagnosticTool 1]
    ∧ console (Reentrant.request (onlyCallback 9 none)
        ⟨some State.Descending, [DiagnosticTool 0, DiagnosticTool 1]⟩).trace
        = ["Lunar Lander is descending. Engines are operational.\n",
            "State transitioned.\n"] :=
  ⟨by decide, diagnosticTool_nonFailing [0, 1],
    ((notify_then_transition (onlyCallback 9 none) State.Descending (by decide)
      [DiagnosticTool 0, DiagnosticTool 1]
      (noCallbacks_onlyCallback 9 none _ (by decide))).1
        (diagnosticTool_nonFailing [0, 1])).2.1⟩

/-! ## Failed delivery, with observers that may call back -/

/-- C14, as stated, fails: in the orbit state, with an observer whose `update` calls
`setState(createState("Landed"))` and returns, followed by an observer that throws, the
delivery of the action notification fails at the second observer, and yet the request
leaves `Landed` as the current state and transition markers on the console. -/
theorem callback_before_thrower_transitions :
    (∃ o ∈ [Returning 7, ThrowingObserver 9],
        o.throwsOn State.DeployedInOrbit.message ≠ none)
    ∧ (Reentrant.request (onlyCallback 7 (StateFactory.createState "Landed"))
        ⟨some State.DeployedInOrbit, [Returning 7, ThrowingObserver 9]⟩).ctx.currentState
      = some State.Landed
    ∧ console (Reentrant.request (onlyCallback 7 (StateFactory.createState "Landed"))
        ⟨some State.DeployedInOrbit, [Returning 7, ThrowingObserver 9]⟩).trace
      = ["Lunar Lander is deployed in orbit. Preparing for descent.\n",
          "State transitioned.\n", "State transitioned.\n"] := by
  exact ⟨⟨ThrowingObserver 9, by simp, by simp [ThrowingObserver]⟩, by decide, by decide⟩

/-- C14, amended: in a context whose observers do not call back into it, when some
observer throws on the action notification of the current state, the request performs no
transition: the context (current state and observer list) is as it was before, the only
console output is the banner of the state, and no transition marker is in the trace. -/
theorem failed_delivery_no_transition (calls : Callbacks) (s : State)
    (observers : List Observer) (hc : NoCallbacks calls observers)
    (hfail : ∃ o ∈ observers, o.throwsOn s.message ≠ none) :
    (Reentrant.request calls ⟨some s, observers⟩).ctx = ⟨some s, observers⟩
    ∧ (Reentrant.request calls ⟨some s, observers⟩).ctx.currentState = some s
    ∧ (Reentrant.request calls ⟨some s, observers⟩).ctx.observers = observers
    ∧ console (Reentrant.request calls ⟨some s, observers⟩).trace = [s.banner]
    ∧ (∀ e ∈ (Reentrant.request calls ⟨some s, observers⟩).trace, e.event ≠ marker) := by
  rw [reentrant_request_eq calls ⟨some s, observers⟩ hc]
  exact passive_failed_delivery s observers hfail

/-- Witness for C14: the second of two observers throws during a request in the
descending state; neither calls back. -/
theorem failed_delivery_no_transition_witness :
    (∃ o ∈ [DiagnosticTool 0, ThrowingObserver 9],
        o.throwsOn State.Descending.message ≠ none)
    ∧ (Reentrant.request (onlyCallback 7 none)
        ⟨some State.Descending, [DiagnosticTool 0, ThrowingObserver 9]⟩).ctx.currentState
      = some State.Descending :=
  ⟨⟨ThrowingObserver 9, by simp, by simp [ThrowingObserver]⟩,
    (failed_delivery_no_transition (onlyCallback 7 none) State.Descending
      [DiagnosticTool 0, ThrowingObserver 9]
      (noCallbacks_onlyCallback 7 none _ (by decide))
      ⟨ThrowingObserver 9, by simp, by simp [ThrowingObserver]⟩).2.1⟩

/-! ## Validity of the current state, with observers that may call back -/

/-- C12, as stated, fails: on a fresh context, `attachObserver(l)` and then
`notifyObservers("x")`, where the `update` of `l` calls `setState(createState("bogus"))`
and returns, both return normally and leave the context without a current state; the
next request dereferences the null pointer. -/
theorem callback_installs_null :
    (Reentrant.runCalls (onlyCallback 1 (StateFactory.createState "bogus"))
        [Call.attachObserver (Returning 1), Call.notifyObservers "x"]
        LunarLanderContext.new).value = Except.ok ()
    ∧ (Reentrant.runCalls (onlyCallback 1 (StateFactory.createState "bogus"))
        [Call.attachObserver (Returning 1), Call.notifyObservers "x"]
        LunarLanderContext.new).ctx.currentState = none
    ∧ (Reentrant.request (onlyCallback 1 (StateFactory.createState "bogus"))
        (Reentrant.contextAfter (onlyCallback 1 (StateFactory.createState "bogus"))
          [Call.attachObserver (Returning 1), Call.notifyObservers "x"]
          LunarLanderContext.new)).value = Except.error Fault.nullDeref := by
  exact ⟨rfl, by decide, rfl⟩

/-- C12, amended: the constructor's identifier and the three successor identifiers of the
handles are recognized by the factory; so after any finite sequence of `request()`,
`attachObserver(l)` and `notifyObservers(m)` calls on a freshly constructed context in
which no attached observer calls back into the context, whether the caller stops at the
first exception or goes on, the current state is one of the four states and not null, a
further request does not dereference a null pointer, and no event of the calls happens
while the current state is null. -/
theorem current_state_always_valid (calls : Callbacks) (cs : List Call)
    (hc : NoCallbacks calls (attachedBy cs)) :
    LunarLanderContext.new.currentState = some State.DeployedInOrbit
    ∧ StateFactory.createState "Descending" = some State.Descending
    ∧ StateFactory.createState "EngineCutOff" = some State.EngineCutOff
    ∧ StateFactory.createState "Landed" = some State.Landed
    ∧ (∃ s ∈ specChain,
        (Reentrant.contextAfter calls cs LunarLanderContext.new).currentState = some s)
    ∧ (∃ s ∈ specChain,
        (Reentrant.runCalls calls cs LunarLanderContext.new).ctx.currentState = some s)
    ∧ (Reentrant.runCalls calls cs LunarLanderContext.new).value
        ≠ Except.error Fault.nullDeref
    ∧ (Reentrant.request calls
          (Reentrant.contextAfter calls cs LunarLanderContext.new)).value
        ≠ Except.error Fault.nullDeref
    ∧ (∀ e ∈ (Reentrant.runCalls calls cs LunarLanderContext.new).trace, e.phase ≠ none)
    ∧ (∀ e ∈ (Reentrant.request calls
          (Reentrant.contextAfter calls cs LunarLanderContext.new)).trace,
        e.phase ≠ none) := by
  have hnew : LunarLanderContext.new.observers = [] := rfl
  have hc2 : NoCallbacks calls (LunarLanderContext.new.observers ++ attachedBy cs) := by
    rw [hnew, List.nil_append]; exact hc
  have hc3 : NoCallbacks calls (contextAfter cs LunarLanderContext.new).observers := by
    rw [contextAfter_observers]; exact hc2
  rw [reentrant_contextAfter_eq calls cs LunarLanderContext.new hc2,
    reentrant_runCalls_eq calls cs LunarLanderContext.new hc2,
    reentrant_request_eq calls (contextAfter cs LunarLanderContext.new) hc3]
  exact passive_current_state_valid cs

/-- Witness for C12: a `DiagnosticTool` is attached between two requests; the only
observer that calls back is never attached. -/
theorem current_state_always_valid_witness :
    ∃ s ∈ specChain,
      (Reentrant.runCalls (onlyCallback 9 none)
        [Call.request, Call.attachObserver (DiagnosticTool 1), Call.request]
        LunarLanderContext.new).ctx.currentState = some s :=
  (current_state_always_valid (onlyCallback 9 none)
    [Call.request, Call.attachObserver (DiagnosticTool 1), Call.request]
    (noCallbacks_onlyCallback 9 none _ (by decide))).2.2.2.2.2.1

/-! ## Noninterference, with observers that may call back -/

/-- C18, as stated, fails: from the same current state, with no observer on one side and
on the other side one observer that does not fail and whose `update` calls
`setState(createState("bogus"))`, the call `notifyObservers("x")` leaves different
current states. -/
theorem callback_observer_interferes :
    NonFailing [Returning 1]
    ∧ (Reentrant.runCalls (onlyCallback 1 (StateFactory.createState "bogus"))
        [Call.notifyObservers "x"] ⟨some State.DeployedInOrbit, []⟩).ctx.currentState
      = some State.DeployedInOrbit
    ∧ (Reentrant.runCalls (onlyCallback 1 (StateFactory.createState "bogus"))
        [Call.notifyObservers "x"]
        ⟨some State.DeployedInOrbit, [Returning 1]⟩).ctx.currentState
      = none := by
  exact ⟨fun o _ _ => by simp_all [Returning], rfl, by decide⟩

/-- C18, amended: two contexts with the same current state, each with its own list of
observers that neither throw nor call back into the context, go through any common
sequence of `request()`, `notifyObservers(m)` and `attachObserver(l)` calls whose attached
observers do not call back alike: the calls end the same way, the current states after
them are equal and the sequences of messages fired are equal, whether the caller stops at
the first exception or goes on. -/
theorem observers_do_not_interfere (calls : Callbacks) (ctx1 ctx2 : LunarLanderContext)
    (hs : ctx1.currentState = ctx2.currentState) (h1 : NonFailing ctx1.observers)
    (h2 : NonFailing ctx2.observers) (cs : List Call)
    (hc1 : NoCallbacks calls (ctx1.observers ++ attachedBy cs))
    (hc2 : NoCallbacks calls (ctx2.observers ++ attachedBy cs)) :
    (Reentrant.runCalls calls cs ctx1).ctx.currentState
        = (Reentrant.runCalls calls cs ctx2).ctx.currentState
    ∧ fired (Reentrant.runCalls calls cs ctx1).trace
        = fired (Reentrant.runCalls calls cs ctx2).trace
    ∧ (Reentrant.runCalls calls cs ctx1).value = (Reentrant.runCalls calls cs ctx2).value
    ∧ (Reentrant.contextAfter calls cs ctx1).currentState
        = (Reentrant.contextAfter calls cs ctx2).currentState := by
  rw [reentrant_runCalls_eq calls cs ctx1 hc1, reentrant_runCalls_eq calls cs ctx2 hc2,
    reentrant_contextAfter_eq calls cs ctx1 hc1, reentrant_contextAfter_eq calls cs ctx2 hc2]
  have h := passive_observers_similar ctx1 ctx2 hs h1 h2 cs
  exact ⟨h.1, h.2.1, h.2.2.1, h.2.2.2.1⟩

/-- Witness for C18: no observer on one side, two on the other, and a third attached in
the course of the calls; none of them calls back. -/
theorem observers_do_not_interfere_witness :
    (Reentrant.runCalls (onlyCallback 9 none)
        [Call.request, Call.attachObserver (DiagnosticTool 7), Call.request]
        ⟨some State.DeployedInOrbit, []⟩).ctx.currentState
      = (Reentrant.runCalls (onlyCallback 9 none)
        [Call.request, Call.attachObserver (DiagnosticTool 7), Call.request]
        ⟨some State.DeployedInOrbit, [DiagnosticTool 0, DiagnosticTool 1]⟩).ctx.currentState :=
  (observers_do_not_interfere (onlyCallback 9 none) ⟨some State.DeployedInOrbit, []⟩
    ⟨some State.DeployedInOrbit, [DiagnosticTool 0, DiagnosticTool 1]⟩ rfl
    (diagnosticTool_nonFailing []) (diagnosticTool_nonFailing [0, 1])
    [Call.request, Call.attachObserver (DiagnosticTool 7), Call.request]
    (noCallbacks_onlyCallback 9 none _ (by decide))
    (noCallbacks_onlyCallback 9 none _ (by decide))).1

end LunarLander
